import Mathlib

/-!
HTTP-Server: the per-connection request pipeline of `server.c`

A shallow embedding of the request pipeline of `src/server.c`.

Conventions of the embedding.

* A C string is the list of its characters before the terminating NUL
  (`List Char`); a possibly-NULL `char*` is an `Option (List Char)`.
* A pointer into a string returned by `strchr`, `strrchr` or `strstr` is the
  offset of the pointed character (`Option Nat`, `none` for NULL).
* `int` results are `Int`.
* A C function whose execution dereferences NULL has no return value: the
  model returns `none`.
* A loop that shortens a string on every round is driven by a fuel argument
  initialised above the length of that string, and yields `none` when the fuel
  is used up; `replaceSubstringLoop_pct20` and `hasPermissionsLoop_returns`
  show that this does not happen in the calls that `server.c` makes.  A loop
  over calls to `write` is driven by the list of the results of these calls,
  and so is the loop over calls to `read`, for which the end of the list is
  the end of the stream.
* A write beyond the end of a buffer of fixed size is undefined in C: the
  model has no result (`none`) there.
-/

namespace HttpServer

/-! ## Constants of `server.c` -/

def DEFAULT_FILE : List Char := "index.html".toList
def NUM_OF_EXPECTED_TOKENS : Int := 3
def SIZE_REQUEST : Nat := 4000

/-- The largest value of an `int`. -/
def INT_MAX : Int := 2147483647

def CODE_OK : Int := 200
def CODE_FOUND : Int := 302
def CODE_BAD : Int := 400
def CODE_FORBIDDEN : Int := 403
def CODE_NOT_FOUND : Int := 404
def CODE_INTERNAL_ERROR : Int := 500
def CODE_NOT_SUPPORTED : Int := 501
def CODE_EMPTY_REQUEST : Int := 999

/-! ## The C string library, as far as `server.c` uses it -/

/-- The call `strncmp(s, p, strlen(p)) == 0`: the string `s` begins with `p`. -/
def startsWith : List Char → List Char → Bool
  | _, [] => true
  | [], _ :: _ => false
  | x :: xs, y :: ys => x == y && startsWith xs ys

/-- The call `strchr(s, c)`: offset of the first `c` in `s`. -/
def strchr : List Char → Char → Option Nat
  | [], _ => none
  | x :: xs, c => if x = c then some 0 else (strchr xs c).map (· + 1)

/-- The call `strrchr(s, c)`: offset of the last `c` in `s`. -/
def strrchr : List Char → Char → Option Nat
  | [], _ => none
  | x :: xs, c =>
    match strrchr xs c with
    | some i => some (i + 1)
    | none => if x = c then some 0 else none

/-- The call `strstr(hay, needle)`: offset of the first occurrence of `needle`. -/
def strstr : List Char → List Char → Option Nat
  | [], needle => if needle = [] then some 0 else none
  | x :: xs, needle =>
    if startsWith (x :: xs) needle then some 0 else (strstr xs needle).map (· + 1)

/-! ## `replaceSubstring` (server.c 997-1022) -/

/-- The `while((origPtr = strstr(str, orig)))` loop of `replaceSubstring`: the
first occurrence of `orig` is overwritten by `replace` followed by the rest of
the string, and the search starts again from the beginning of `str`. -/
def replaceSubstringLoop (orig replace : List Char) : Nat → List Char → Option (List Char)
  | 0, _ => none
  | fuel + 1, str =>
    match strstr str orig with
    | none => some str
    | some i =>
      replaceSubstringLoop orig replace fuel
        (str.take i ++ (replace ++ str.drop (i + orig.length)))

/-- The function `replaceSubstring(str, orig, replace)`: the return code and
the contents of `str` afterwards. -/
def replaceSubstring (str orig replace : List Char) : Option (Int × List Char) :=
  if replace.length > orig.length then some (-1, str)
  else (replaceSubstringLoop orig replace (str.length + 1) str).map (fun s => (0, s))

/-- The escape that `parsePath` decodes. -/
def pct20 : List Char := ['%', '2', '0']

/-- Specification of the decoding, following the words of the spec: scanning
left to right, every `%20` becomes one space, every other character is kept. -/
def decodeSpaces : List Char → List Char
  | [] => []
  | [c] => [c]
  | [c, d] => [c, d]
  | c :: d :: e :: rest =>
    if c = '%' ∧ d = '2' ∧ e = '0' then ' ' :: decodeSpaces rest
    else c :: decodeSpaces (d :: e :: rest)

/-- Number of occurrences of `%20` met by the left-to-right scan of the
specification. -/
def countEscapes : List Char → Nat
  | [] => 0
  | [_] => 0
  | [_, _] => 0
  | c :: d :: e :: rest =>
    if c = '%' ∧ d = '2' ∧ e = '0' then countEscapes rest + 1
    else countEscapes (d :: e :: rest)

/-- The string `s` contains `t` as a block of consecutive characters. -/
def Contains (s t : List Char) : Prop := ∃ a b, s = a ++ t ++ b

/-! ## `get_mime_type` (server.c 835-864) -/

/-- The function `get_mime_type(name)`; `none` is the NULL result. -/
def get_mime_type (name : List Char) : Option (List Char) :=
  match strrchr name '.' with
  | none => none
  | some i =>
    let ext := name.drop i
    if ext = ".html".toList ∨ ext = ".htm".toList then some "text/html".toList
    else if ext = ".jpg".toList ∨ ext = ".jpeg".toList then some "image/jpeg".toList
    else if ext = ".gif".toList then some "image/gif".toList
    else if ext = ".png".toList then some "image/png".toList
    else if ext = ".css".toList then some "text/css".toList
    else if ext = ".au".toList then some "audio/basic".toList
    else if ext = ".wav".toList then some "audio/wav".toList
    else if ext = ".avi".toList then some "video/x-msvideo".toList
    else if ext = ".mpeg".toList ∨ ext = ".mpg".toList then some "video/mpeg".toList
    else if ext = ".mp3".toList then some "audio/mpeg".toList
    else none

/-- The table of the spec: extension (without the dot) and content type. -/
def mimeTable : List (String × String) :=
  [("html", "text/html"), ("htm", "text/html"), ("jpg", "image/jpeg"),
   ("jpeg", "image/jpeg"), ("gif", "image/gif"), ("png", "image/png"),
   ("css", "text/css"), ("au", "audio/basic"), ("wav", "audio/wav"),
   ("avi", "video/x-msvideo"), ("mpeg", "video/mpeg"), ("mpg", "video/mpeg"),
   ("mp3", "audio/mpeg")]

/-- The extension of a file name in the words of the spec: the characters
after the last `.`, and nothing when the name has no `.`. -/
def extensionOf (name : List Char) : Option (List Char) :=
  if '.' ∈ name then some (name.reverse.takeWhile (fun c => c != '.')).reverse else none

/-- The classifier of the spec: look the extension up in the table,
comparing character by character. -/
def classify (name : List Char) : Option (List Char) :=
  match extensionOf name with
  | none => none
  | some e => (mimeTable.find? (fun r => r.1.toList == e)).map (fun r => r.2.toList)

/-! ## `parseRequest` (server.c 381-419) -/

/-- The predicate `isspace` of the C locale: space, `\t`, `\n`, `\v`, `\f`, `\r`. -/
def isspace (c : Char) : Bool :=
  c == ' ' || c == '\t' || c == '\n' || c == Char.ofNat 11 || c == Char.ofNat 12 || c == '\r'

/-- A white-space directive of a `scanf` format: skips all white space. -/
def skipSpace (input : List Char) : List Char := input.dropWhile isspace

/-- The conversion `%s` of `sscanf`, with its optional field width: white
space is skipped, then the characters up to the next white space are taken, at
most `width` of them.  At the end of the input the conversion fails (`none`).
The result is the field and the input left. -/
def scanString (width : Option Nat) (input : List Char) : Option (List Char × List Char) :=
  let s := skipSpace input
  if s = [] then none
  else
    let tok := s.takeWhile (fun c => !isspace c)
    let field := match width with
      | none => tok
      | some w => tok.take w
    some (field, s.drop field.length)

/-- The call `sscanf(request, "%4s %s %8s", method, path, protocol)`: the
return value and the three buffers, which the handler and `parseRequest` have
zeroed before.  The return value is the number of fields assigned, or `EOF`
(-1) when the input ends before the first field.  There is no result when the
first field has four characters: `%4s` stores them and a terminator, five
bytes, in `char method[4]`. -/
def sscanfRequest (request : List Char) : Option (Int × List Char × List Char × List Char) :=
  match scanString (some 4) request with
  | none => some (-1, [], [], [])
  | some (method, r1) =>
    if 4 ≤ method.length then none
    else
      match scanString none (skipSpace r1) with
      | none => some (1, method, [], [])
      | some (path, r2) =>
        match scanString (some 8) (skipSpace r2) with
        | none => some (2, method, path, [])
        | some (protocol, _) => some (3, method, path, protocol)

/-- The function `parseRequest(request, path)` on the contents of the buffer
`request` of the handler, which holds fewer than `SIZE_REQUEST` characters, so
that every token fits `char path[SIZE_REQUEST]`: the return code and the
contents of `path` afterwards.  There is no result when `sscanf` has none, or
when `strchr` finds no `/` from offset 7 of a path that begins with `http`:
its NULL goes to `strcat`. -/
def parseRequest (request : List Char) : Option (Int × List Char) :=
  let request :=
    match strchr request '\r' with
    | some cut => request.take cut
    | none => request
  match sscanfRequest request with
  | none => none
  | some (assigned, method, path, protocol) =>
    if assigned ≠ NUM_OF_EXPECTED_TOKENS then some (CODE_BAD, path)
    else if method ≠ "GET".toList then some (CODE_NOT_SUPPORTED, path)
    else if protocol ≠ "HTTP/1.0".toList ∧ protocol ≠ "HTTP/1.1".toList then some (CODE_BAD, path)
    else if startsWith path "http".toList then
      match strchr (path.drop "http://".toList.length) '/' with
      | none => none
      | some i => some (0, (path.drop "http://".toList.length).drop i)
    else some (0, path)

/-- The request line in the words of the spec: the request up to its first
carriage return. -/
def firstLine (request : List Char) : List Char := request.takeWhile (fun c => c != '\r')

/-- A run of white space. -/
@[reducible] def Blank (s : List Char) : Prop := ∀ c ∈ s, isspace c = true

/-- A token: a non-empty run of characters that are not white space. -/
@[reducible] def Token (s : List Char) : Prop := s ≠ [] ∧ ∀ c ∈ s, isspace c = false

/-- What may follow a token: nothing, or white space and then anything. -/
@[reducible] def Rest (s : List Char) : Prop := s = [] ∨ ∃ c r, s = c :: r ∧ isspace c = true

/-- The request line begins with the three white-space separated tokens `m`,
`p` and `q`; more may follow them. -/
@[reducible] def ThreeTokens (line m p q : List Char) : Prop :=
  ∃ pre s1 s2 rest, line = pre ++ (m ++ (s1 ++ (p ++ (s2 ++ (q ++ rest))))) ∧
    Blank pre ∧ Token m ∧ Blank s1 ∧ s1 ≠ [] ∧ Token p ∧ Blank s2 ∧ s2 ≠ [] ∧ Token q ∧ Rest rest

/-- The request line holds white space only. -/
@[reducible] def NoToken (line : List Char) : Prop := Blank line

/-- The request line holds the single token `m`. -/
@[reducible] def OneToken (line m : List Char) : Prop :=
  ∃ pre s, line = pre ++ (m ++ s) ∧ Blank pre ∧ Token m ∧ Blank s

/-- The request line holds the two tokens `m` and `p` and no third one. -/
@[reducible] def TwoTokens (line m p : List Char) : Prop :=
  ∃ pre s1 s2, line = pre ++ (m ++ (s1 ++ (p ++ s2))) ∧
    Blank pre ∧ Token m ∧ Blank s1 ∧ s1 ≠ [] ∧ Token p ∧ Blank s2

/-! ## The file system and the connection, as `server.c` sees them -/

/-- The fields of `struct stat` that `server.c` reads. -/
structure Stat where
  st_mode : Nat
  st_size : Nat
  st_mtime : Nat
  deriving DecidableEq

/-! The macros of `<sys/stat.h>` with their Linux values. -/

def S_IFMT : Nat := 0o170000
def S_IFDIR : Nat := 0o040000
def S_IFREG : Nat := 0o100000
def S_IROTH : Nat := 0o4
def S_IXOTH : Nat := 0o1
def S_ISDIR (mode : Nat) : Bool := mode &&& S_IFMT == S_IFDIR
def S_ISREG (mode : Nat) : Bool := mode &&& S_IFMT == S_IFREG

/-- The environment of one request: what the system calls of `parsePath`,
`hasPermissions` and `writeFile` answer. -/
structure World where
  /-- The call `getcwd(NULL, 0)`; `none` is NULL. -/
  getcwd : Option (List Char)
  /-- Whether the `calloc` of `absPath` succeeds. -/
  calloc_ok : Bool
  /-- The call `stat(path, &buf)`: the buffer it fills, `none` when it returns -1. -/
  stat : List Char → Option Stat
  /-- The call `scandir(path, &list, NULL, alphasort)`: the entry names in
  order, `none` when it returns -1. -/
  scandir : List Char → Option (List (List Char))
  /-- The contents of the uninitialised `statbuf` of `hasPermissions`. -/
  statbuf : Stat
  /-- The call `open(path, O_RDONLY)` and the bytes that reading the
  descriptor yields; `none` when `open` fails. -/
  contents : List Char → Option (List Char)

/-- The struct `response_info_t`. -/
structure response_info_t where
  isPathDir : Int
  foundFile : Int
  numOfFiles : Int
  fileList : Option (List (List Char))
  absPath : Option (List Char)
  root : Option (List Char)
  deriving DecidableEq

/-- The function `initResponseInfo`. -/
def initResponseInfo : response_info_t :=
  { isPathDir := 0, foundFile := 0, numOfFiles := 0, fileList := none, absPath := none,
    root := none }

/-! ## `hasPermissions` (server.c 1028-1063) -/

/-- The `while((s = strrchr(t, '/')))` loop of `hasPermissions`, on the
string `t` and with the current contents of `statbuf`.  The return value of
`stat` is not looked at: when it fails, `statbuf` keeps what it held. -/
def hasPermissionsLoop (stat : List Char → Option Stat) (root : List Char) :
    Nat → List Char → Stat → Option Int
  | 0, _, _ => none
  | fuel + 1, t, statbuf =>
    match strrchr t '/' with
    | none => some 0
    | some s =>
      let statbuf := match stat t with
        | some st => st
        | none => statbuf
      if S_ISDIR statbuf.st_mode && (statbuf.st_mode &&& S_IXOTH == 0) then some (-1)
      else if statbuf.st_mode &&& S_IROTH == 0 then some (-1)
      else if root = t then some 0
      else hasPermissionsLoop stat root fuel (t.take s) statbuf

/-- The function `hasPermissions(path, root)`.  There is no result when `path`
holds no `/`: the NULL of `strchr` goes to `strrchr`. -/
def hasPermissions (stat : List Char → Option Stat) (statbuf : Stat) (path root : List Char) :
    Option Int :=
  match strchr path '/' with
  | none => none
  | some i => hasPermissionsLoop stat root (path.length + 1) (path.drop i) statbuf

/-- The permission policy of the spec on a `stat` result: other-readable and,
for a directory, also other-executable. -/
def policy (st : Stat) : Bool :=
  (st.st_mode &&& S_IROTH != 0) && (!S_ISDIR st.st_mode || st.st_mode &&& S_IXOTH != 0)

/-- A path satisfies the permission policy: it can be stat-ed and its mode
satisfies the policy. -/
def permitted (stat : List Char → Option Stat) (p : List Char) : Bool :=
  match stat p with
  | some st => policy st
  | none => false

/-- The strings obtained from `p` by cutting at the last `/` again and again,
`p` first, until a string without `/` is reached. -/
def cutChainFrom : Nat → List Char → List (List Char)
  | 0, _ => []
  | fuel + 1, p =>
    p :: match strrchr p '/' with
      | none => []
      | some i => cutChainFrom fuel (p.take i)

/-- The chain of the spec: every cut shortens the string, so its length bounds
the number of cuts. -/
def cutChain (p : List Char) : List (List Char) := cutChainFrom (p.length + 1) p

/-- The part of a chain from its first string up to and including `root`. -/
def upTo (root : List Char) : List (List Char) → List (List Char)
  | [] => []
  | p :: ps => if p = root then [p] else p :: upTo root ps

/-- The shape of what follows the root in the strings of the walk: nothing, or
a part that begins with `/`. -/
def Below (s : List Char) : Prop := s = [] ∨ ∃ b, s = '/' :: b

/-! ## `parsePath` (server.c 426-514) -/

/-- The function `parsePath(path, resp_info)`: the return code, the contents
of `path` afterwards and the struct afterwards.  There is no result when the
code reads `absPath[-1]` of an empty `absPath`, when `strrchr` finds no `/` in
`absPath`, when `strncat(dir_path, absPath, dir_path_length)` stores more than
the `dir_path_length` bytes of `char dir_path[dir_path_length]` (it stores the
characters it copies and a terminator), or when `hasPermissions` has none. -/
def parsePath (w : World) (path : List Char) (resp_info : response_info_t) :
    Option (Int × List Char × response_info_t) :=
  match replaceSubstring path "%20".toList " ".toList with
  | none => none
  | some (_, path) =>
    match w.getcwd with
    | none => some (-1, path, resp_info)
    | some rootPath =>
      if !w.calloc_ok then some (-1, path, resp_info)
      else
        let absPath := rootPath ++ path
        let resp_info := { resp_info with absPath := some absPath, root := some rootPath }
        match w.stat absPath with
        | none => some (CODE_NOT_FOUND, path, resp_info)
        | some pathStats =>
          let resp_info :=
            if S_ISDIR pathStats.st_mode then { resp_info with isPathDir := 1 } else resp_info
          if resp_info.isPathDir ≠ 0 then
            match absPath.getLast? with
            | none => none
            | some last =>
              if last ≠ '/' then some (CODE_FOUND, path, resp_info)
              else
                match w.scandir absPath with
                | none => some (CODE_INTERNAL_ERROR, path, { resp_info with numOfFiles := -1 })
                | some fileList =>
                  let resp_info :=
                    { resp_info with numOfFiles := fileList.length, fileList := some fileList }
                  let found := fileList.any (fun d_name => d_name == DEFAULT_FILE)
                  let absPath := if found then absPath ++ DEFAULT_FILE else absPath
                  let resp_info :=
                    if found then { resp_info with foundFile := 1, absPath := some absPath }
                    else resp_info
                  match hasPermissions w.stat w.statbuf absPath rootPath with
                  | none => none
                  | some flag =>
                    if flag ≠ 0 then some (CODE_FORBIDDEN, path, { resp_info with foundFile := 0 })
                    else some (0, path, resp_info)
          else
            match strrchr absPath '/' with
            | none => none
            | some s =>
              let dir_path_length := absPath.length - (absPath.drop (s + 1)).length
              if dir_path_length < (absPath.take dir_path_length).length + 1 then none
              else if !S_ISREG pathStats.st_mode then
                some (CODE_FORBIDDEN, path, { resp_info with isPathDir := 1, foundFile := 0 })
              else
                match hasPermissions w.stat w.statbuf absPath rootPath with
                | none => none
                | some flag =>
                  if flag ≠ 0 then
                    some (CODE_FORBIDDEN, path, { resp_info with isPathDir := 1, foundFile := 0 })
                  else some (0, path, resp_info)

/-- Lexical resolution of a path, in the words of the spec for "the resolved
target": the segments between `/` are read left to right, `.` and empty
segments are dropped and `..` removes the segment before it. -/
def resolveSegments : List (List Char) → List (List Char) → List (List Char)
  | acc, [] => acc.reverse
  | acc, seg :: segs =>
    if seg = [] ∨ seg = ['.'] then resolveSegments acc segs
    else if seg = ['.', '.'] then resolveSegments acc.tail segs
    else resolveSegments (seg :: acc) segs

/-- The segments of the resolved target of an absolute path. -/
def resolved (p : List Char) : List (List Char) :=
  resolveSegments [] (p.splitOn '/')

/-- The resolved target lies under the root: the segments of the resolved root
are the first segments of the resolved target. -/
def underRoot (root p : List Char) : Bool :=
  (resolved root).isPrefixOf (resolved p)

/-! ## `writeResponse` and `writeFile` (server.c 870-943) -/

def SIZE_WRITE_BUFFER : Nat := 512

/-- What a handler does on the outside: it hands bytes to `write` on the
connection, of which the first ones are accepted, or it opens a file. -/
inductive Event where
  | write (accepted : List Char)
  | openFile (path : Option (List Char))
  deriving DecidableEq

/-- The state of the connection: the results of the calls to `write` still to
come.  A negative result is a failed call. -/
abbrev Socket := List Int

/-- The result of a function that writes to the connection: the return value,
`none` when the function has none (it is still waiting in `write` at the end
of the known results, or a counter of type `int` has left its range); the
events in order; the connection afterwards. -/
abbrev Written := Option Int × List Event × Socket

/-- The header loop of `writeResponse`: every call hands the whole `response`
to `write` again. -/
def writeResponseLoop (response : List Char) : Socket → Int → List Event → Written
  | [], bytes_written, evs =>
    if bytes_written < response.length then (none, evs, []) else (some 0, evs, [])
  | nBytes :: sock, bytes_written, evs =>
    if bytes_written < response.length then
      if nBytes < 0 then (some (-1), evs, sock)
      else writeResponseLoop response sock (bytes_written + nBytes)
        (evs ++ [Event.write (response.take nBytes.toNat)])
    else (some 0, evs, nBytes :: sock)

/-- The inner loop of `writeFile` on one buffer of `nBytes` bytes: every call
hands the first `nBytes - bytes_written` bytes of the buffer to `write`. -/
def writeChunk (buffer : List Char) : Socket → Int → List Event → Written
  | [], bytes_written, evs =>
    if bytes_written < buffer.length then (none, evs, []) else (some 0, evs, [])
  | mBytes :: sock, bytes_written, evs =>
    if bytes_written < buffer.length then
      if mBytes < 0 then (some (-1), evs, sock)
      else writeChunk buffer sock (bytes_written + mBytes)
        (evs ++ [Event.write ((buffer.take (buffer.length - bytes_written.toNat)).take
          mBytes.toNat)])
    else (some 0, evs, mBytes :: sock)

/-- The outer loop of `writeFile` on the bytes of the file still to be read,
with the value of `bytes_read`; every `read` fills the buffer with the next
`SIZE_WRITE_BUFFER` bytes, or with those that are left.  There is no return
value when `bytes_read` leaves the range of `int`. -/
def writeFileLoop : Nat → List Char → Int → Socket → List Event → Written
  | 0, _, _, sock, evs => (none, evs, sock)
  | fuel + 1, file, bytes_read, sock, evs =>
    let buffer := file.take SIZE_WRITE_BUFFER
    if buffer = [] then (some 0, evs, sock)
    else if INT_MAX < bytes_read + buffer.length then (none, evs, sock)
    else
      match writeChunk buffer sock 0 evs with
      | (some 0, evs, sock) =>
        writeFileLoop fuel (file.drop SIZE_WRITE_BUFFER) (bytes_read + buffer.length) sock evs
      | r => r

/-- The function `writeFile(sockfd, absPath)`. -/
def writeFile (w : World) (sock : Socket) (absPath : Option (List Char)) : Written :=
  match absPath.bind w.contents with
  | none => (some (-1), [Event.openFile absPath], sock)
  | some file => writeFileLoop (file.length + 1) file 0 sock [Event.openFile absPath]

/-- The function `writeResponse(sockfd, response, path, resp_info)`. -/
def writeResponse (w : World) (sock : Socket) (response : List Char)
    (path : Option (List Char)) (resp_info : response_info_t) : Written :=
  match writeResponseLoop response sock 0 [] with
  | (some 0, evs, sock) =>
    if path.isSome ∧ (resp_info.foundFile ≠ 0 ∨ resp_info.isPathDir = 0) then
      match writeFile w sock resp_info.absPath with
      | (r, evs2, sock) => (r, evs ++ evs2, sock)
    else (some 0, evs, sock)
  | r => r

/-! ## `constructResponse`, `getResponseBody`, `getDirContents` (server.c 549-829) -/

def SIZE_DIR_ENTITY : Nat := 500

def CODE_OK_STRING : List Char := "200 OK".toList
def CODE_FOUND_STRING : List Char := "302 Found".toList
def CODE_BAD_STRING : List Char := "400 Bad Request".toList
def CODE_FORBIDDEN_STRING : List Char := "403 Forbidden".toList
def CODE_NOT_FOUND_STRING : List Char := "404 Not Found".toList
def CODE_INTERNAL_ERROR_STRING : List Char := "500 Internal Server Error".toList
def CODE_NOT_SUPPORTED_STRING : List Char := "501 Not Supported".toList

def RESPONSE_FOUND : List Char := "Directories must end with a slash.\n".toList
def RESPONSE_BAD_REQUEST : List Char := "Bad Request.\n".toList
def RESPONSE_FORBIDDEN : List Char := "Access denied.\n".toList
def RESPONSE_NOT_FOUND : List Char := "File not found.\n".toList
def RESPONSE_INTERNAL_ERROR : List Char := "Some server side error.\n".toList
def RESPONSE_NOT_SUPPORTED : List Char := "Method is not supported.\n".toList

/-- The call `sprintf(buf, RESPONSE_BODY_TEMPLATE, a, b, c)`: the template
with its three `%s` filled in. -/
def RESPONSE_BODY_TEMPLATE (a b c : List Char) : List Char :=
  "<HTML>\n<HEAD>\n<TITLE>".toList ++ a ++ "</TITLE>\n</HEAD>\n<BODY>\n<H4>".toList ++ b
    ++ "</H4>\n".toList ++ c ++ "\n</BODY>\n</HTML>\n".toList

/-- The conversions `%d` and `%ld` of `sprintf` on a number that is not
negative: its decimal digits. -/
def decimal (n : Nat) : List Char := Nat.toDigits 10 n

/-- What the C library answers while a response is built. -/
structure Runtime where
  /-- The call `time(NULL)`. -/
  now : Nat
  /-- The call `strftime(timebuf, sizeof(timebuf), RFC1123FMT, gmtime(&t))`:
  the contents of `timebuf` afterwards. -/
  strftime : Nat → List Char
  /-- Whether the `calloc` of the body in `getResponseBody` and
  `getDirContents` succeeds. -/
  calloc_body : Bool
  /-- Whether the `calloc` of the response in `constructResponse` succeeds. -/
  calloc_response : Bool

/-- The function `getResponseBody(type)`; `none` is the NULL result. -/
def getResponseBody (rt : Runtime) (type : Int) : Option (List Char) :=
  let tb : List Char × List Char :=
    if type = CODE_FOUND then (CODE_FOUND_STRING, RESPONSE_FOUND)
    else if type = CODE_BAD then (CODE_BAD_STRING, RESPONSE_BAD_REQUEST)
    else if type = CODE_FORBIDDEN then (CODE_FORBIDDEN_STRING, RESPONSE_FORBIDDEN)
    else if type = CODE_NOT_FOUND then (CODE_NOT_FOUND_STRING, RESPONSE_NOT_FOUND)
    else if type = CODE_INTERNAL_ERROR then
      (CODE_INTERNAL_ERROR_STRING, RESPONSE_INTERNAL_ERROR)
    else if type = CODE_NOT_SUPPORTED then (CODE_NOT_SUPPORTED_STRING, RESPONSE_NOT_SUPPORTED)
    else ([], [])
  if rt.calloc_body then some (RESPONSE_BODY_TEMPLATE tb.1 tb.1 tb.2) else none

/-- The contents of `entity` for one directory entry in `getDirContents`: the
`sprintf` of name, name and time, and the size cell that `strcat` appends. -/
def dirEntity (rt : Runtime) (d_name : List Char) (statBuff : Stat) : List Char :=
  "<tr><td><A HREF=\"".toList ++ d_name ++ "\">".toList ++ d_name ++ "</A></td><td>".toList
    ++ rt.strftime statBuff.st_mtime ++ "</td>".toList
    ++ (if S_ISDIR statBuff.st_mode then "<td></td></tr>\n".toList
        else "<td>".toList ++ decimal statBuff.st_size ++ "</td></tr>\n".toList)

/-- The `for` loop of `getDirContents` over the entries still to come, with
the contents of `body` so far.  The inner `none` is the NULL that the function
returns when an entry cannot be stat-ed; there is no result when an entity
does not fit, with its terminator, into `char entity[SIZE_DIR_ENTITY]`. -/
def getDirContentsLoop (rt : Runtime) (w : World) (path : List Char) :
    List (List Char) → List Char → Option (Option (List Char))
  | [], body => some (some body)
  | d_name :: rest, body =>
    match w.stat (path ++ d_name) with
    | none => some none
    | some statBuff =>
      let entity := dirEntity rt d_name statBuff
      if SIZE_DIR_ENTITY ≤ entity.length then none
      else getDirContentsLoop rt w path rest (body ++ entity)

/-- The function `getDirContents(resp_info)`.  The inner `none` is the NULL
result.  There is no result when `absPath` is NULL, when `numOfFiles` is
negative or counts more entries than `fileList` holds, when an entity does
not fit its buffer, or when the table does not fit, with its terminator, into
`char body[SIZE_DIR_ENTITY * (numOfFiles + 1)]`. -/
def getDirContents (rt : Runtime) (w : World) (resp_info : response_info_t) :
    Option (Option (List Char)) :=
  match resp_info.absPath with
  | none => none
  | some path =>
    if resp_info.numOfFiles < 0 then none
    else
      let numOfFiles := resp_info.numOfFiles.toNat
      let fileList := resp_info.fileList.getD []
      if fileList.length < numOfFiles then none
      else
        let title := "Index of ".toList ++ path
        match getDirContentsLoop rt w path (fileList.take numOfFiles)
            ("<table CELLSPACING=8>\n<tr><th>Name</th><th>Last Modified</th><th>Size</th></tr>\n".toList)
        with
        | none => none
        | some none => some none
        | some (some rows) =>
          let body := rows ++ "</table>\n<HR>\n<ADDRESS>webserver/1.0</ADDRESS>\n".toList
          if SIZE_DIR_ENTITY * (numOfFiles + 1) ≤ body.length then none
          else if rt.calloc_body then some (some (RESPONSE_BODY_TEMPLATE title title body))
          else some none

/-- The function `constructResponse(type, path, resp_info)`.  The inner `none`
is the NULL result.  There is no result when `path` is NULL for a Found
response (it goes to `%s`), when `path` is NULL or holds no `/` for the OK
response of a file (the NULL goes to `get_mime_type`), or when
`getDirContents` has none. -/
def constructResponse (rt : Runtime) (w : World) (type : Int) (path : Option (List Char))
    (resp_info : response_info_t) : Option (Option (List Char)) :=
  let server_header := "Server: webserver/1.0\r\n".toList
  let connection := "Connection: close\r\n\r\n".toList
  let type_string : List Char :=
    if type = CODE_OK then CODE_OK_STRING
    else if type = CODE_FOUND then CODE_FOUND_STRING
    else if type = CODE_BAD then CODE_BAD_STRING
    else if type = CODE_FORBIDDEN then CODE_FORBIDDEN_STRING
    else if type = CODE_NOT_FOUND then CODE_NOT_FOUND_STRING
    else if type = CODE_INTERNAL_ERROR then CODE_INTERNAL_ERROR_STRING
    else if type = CODE_NOT_SUPPORTED then CODE_NOT_SUPPORTED_STRING
    else []
  let location : Option (List Char) :=
    if type = CODE_FOUND then path.map (fun p => "Location: ".toList ++ p ++ "/\r\n".toList)
    else some []
  match location with
  | none => none
  | some location_header =>
    let response_type := "HTTP/1.0 ".toList ++ type_string ++ "\r\n".toList
    let date_string := "Date: ".toList ++ rt.strftime rt.now ++ "\r\n".toList
    let mimeResult : Option (Option (List Char)) :=
      if resp_info.isPathDir ≠ 0 ∨ type ≠ CODE_OK then some (get_mime_type DEFAULT_FILE)
      else
        match path with
        | none => none
        | some p =>
          match strrchr p '/' with
          | none => none
          | some i => some (get_mime_type (p.drop i))
    match mimeResult with
    | none => none
    | some mime =>
      let content_type : List Char :=
        match mime with
        | some m => "Content-Type: ".toList ++ m ++ "\r\n".toList
        | none => []
      if type = CODE_OK then
        match resp_info.absPath.bind w.stat with
        | none => some none
        | some statBuff =>
          let last_modified :=
            "Last-Modified: ".toList ++ rt.strftime statBuff.st_mtime ++ "\r\n".toList
          if resp_info.isPathDir = 0 ∨ resp_info.foundFile ≠ 0 then
            let content_length :=
              "Content-Length: ".toList ++ decimal statBuff.st_size ++ "\r\n".toList
            if rt.calloc_response then
              some (some (response_type ++ server_header ++ date_string ++ location_header
                ++ content_type ++ content_length ++ last_modified ++ connection))
            else some none
          else
            match getDirContents rt w resp_info with
            | none => none
            | some none => some none
            | some (some responseBody) =>
              let content_length :=
                "Content-Length: ".toList ++ decimal responseBody.length ++ "\r\n".toList
              if rt.calloc_response then
                some (some (response_type ++ server_header ++ date_string ++ location_header
                  ++ content_type ++ content_length ++ last_modified ++ connection
                  ++ responseBody))
              else some none
      else
        match getResponseBody rt type with
        | none => some none
        | some responseBody =>
          let content_length :=
            "Content-Length: ".toList ++ decimal responseBody.length ++ "\r\n".toList
          if rt.calloc_response then
            some (some (response_type ++ server_header ++ date_string ++ location_header
              ++ content_type ++ content_length ++ connection ++ responseBody))
          else some none

/-! ## The wire format and the connection in the words of the spec -/

/-- The bytes that the connection has accepted, in order. -/
def delivered : List Event → List Char
  | [] => []
  | Event.write accepted :: evs => accepted ++ delivered evs
  | Event.openFile _ :: evs => delivered evs

/-- The reason phrases of the seven status codes. -/
def reasonPhrase (code : Int) : List Char :=
  if code = 200 then "OK".toList
  else if code = 302 then "Found".toList
  else if code = 400 then "Bad Request".toList
  else if code = 403 then "Forbidden".toList
  else if code = 404 then "Not Found".toList
  else if code = 500 then "Internal Server Error".toList
  else if code = 501 then "Not Supported".toList
  else []

/-- The status line of the wire format: `HTTP/1.0 <code> <reason>\r\n`. -/
def statusLine (code : Int) : List Char :=
  "HTTP/1.0 ".toList ++ decimal code.toNat ++ " ".toList ++ reasonPhrase code ++ "\r\n".toList

/-- A header line of the wire format: name, colon, space, value, `\r\n`. -/
def headerLine (name value : List Char) : List Char :=
  name ++ ": ".toList ++ value ++ "\r\n".toList

/-- An optional header line. -/
def optionalHeader (name : List Char) : Option (List Char) → List Char
  | some value => headerLine name value
  | none => []

/-- The wire format of the spec: status line, `Server`, `Date`, optional
`Location`, optional `Content-Type`, `Content-Length`, optional
`Last-Modified`, `Connection: close`, an empty line, and the body. -/
def wireFormat (code : Int) (date : List Char) (location contentType : Option (List Char))
    (contentLength : Nat) (lastModified : Option (List Char)) (body : List Char) : List Char :=
  statusLine code ++ headerLine "Server".toList "webserver/1.0".toList
    ++ headerLine "Date".toList date
    ++ optionalHeader "Location".toList location
    ++ optionalHeader "Content-Type".toList contentType
    ++ headerLine "Content-Length".toList (decimal contentLength)
    ++ optionalHeader "Last-Modified".toList lastModified
    ++ headerLine "Connection".toList "close".toList
    ++ "\r\n".toList ++ body

/-- The seven status codes. -/
def statusCodes : List Int := [200, 302, 400, 403, 404, 500, 501]

/-- The characters after the last `/` of a path: the file name. -/
def fileName (p : List Char) : List Char :=
  (p.reverse.takeWhile (fun c => c != '/')).reverse

/-- The lines that `getDirContents` writes before the rows. -/
def tableHead : List Char :=
  "<table CELLSPACING=8>\n<tr><th>Name</th><th>Last Modified</th><th>Size</th></tr>\n".toList

/-- The lines that `getDirContents` writes after the rows. -/
def tableFoot : List Char := "</table>\n<HR>\n<ADDRESS>webserver/1.0</ADDRESS>\n".toList

/-- The rows of a listing: one per entry, in order, each the entity of the
entry and its `stat` result. -/
def RowsOf (rt : Runtime) (w : World) (path : List Char) :
    List (List Char) → List (List Char) → Prop
  | [], [] => True
  | d_name :: names, row :: rows =>
    (∃ st, w.stat (path ++ d_name) = some st ∧ row = dirEntity rt d_name st) ∧
      RowsOf rt w path names rows
  | _, _ => False

/-! ## `readRequest`, `sendResponse` and `handler` (server.c 283-374, 523-542) -/

def SIZE_READ_BUFFER : Nat := 2

/-- The byte 0 that ends a C string. -/
def NUL : Char := Char.ofNat 0

/-- The result of one call `read(sockfd, buffer, SIZE_READ_BUFFER)` that does
not return 0: one byte arrived, two bytes arrived, or the call failed. -/
inductive ReadResult where
  | one (a : Char)
  | two (a b : Char)
  | error
  deriving DecidableEq

/-- The incoming side of the connection: the results of the calls to `read`
before the peer closes its side.  At the end of the list the stream is at its
end, where `read` returns 0. -/
abbrev Incoming := List ReadResult

/-- The call `read(sockfd, buffer, SIZE_READ_BUFFER)` with a given result: the
return value and the first two bytes of `buffer` afterwards.  The third byte
of `char buffer[SIZE_READ_BUFFER + 1]` stays 0. -/
def read (r : ReadResult) (buffer : Char × Char) : Int × (Char × Char) :=
  match r with
  | ReadResult.one a => (1, (a, buffer.2))
  | ReadResult.two a b => (2, (a, b))
  | ReadResult.error => (-1, buffer)

/-- The C string that `buffer` holds: its bytes before the first 0. -/
def bufferString (buffer : Char × Char) : List Char :=
  [buffer.1, buffer.2].takeWhile (fun c => c != NUL)

/-- The `while((nBytes = read(...)) > 0)` loop of `readRequest` and the lines
after it, on the results of the calls to `read` still to come, with the
contents of `buffer`, `bytes_read` and `request`: the return code and the
contents of `request` afterwards.  The test `nBytes < 0` stands inside the loop
as in the source.  There is no result when `bytes_read` leaves the range of
`int` or when `strncat` writes beyond `char request[SIZE_REQUEST]`. -/
def readRequestLoop : Incoming → Char × Char → Int → List Char → Option (Int × List Char)
  | [], _, bytes_read, request =>
    some (if bytes_read = 0 then CODE_EMPTY_REQUEST else 0, request)
  | r :: conn, buffer, bytes_read, request =>
    match read r buffer with
    | (nBytes, buffer) =>
      if nBytes > 0 then
        if nBytes < 0 then some (CODE_INTERNAL_ERROR, request)
        else if INT_MAX < bytes_read + nBytes then none
        else
          let bytes_read := bytes_read + nBytes
          let request := request ++ (bufferString buffer).take nBytes.toNat
          if SIZE_REQUEST ≤ request.length then none
          else if (strchr (bufferString buffer) '\r').isSome then
            some (if bytes_read = 0 then CODE_EMPTY_REQUEST else 0, request)
          else readRequestLoop conn buffer bytes_read request
      else some (if bytes_read = 0 then CODE_EMPTY_REQUEST else 0, request)

/-- The function `readRequest(request, sockfd)` on the zeroed `request` of the
handler: the return code and the contents of `request` afterwards. -/
def readRequest (conn : Incoming) : Option (Int × List Char) :=
  readRequestLoop conn (NUL, NUL) 0 []

/-- The function `sendResponse(sockfd, type, path, resp_info)` for a
`resp_info` that is not NULL.  There is no result when `constructResponse` has
none. -/
def sendResponse (rt : Runtime) (w : World) (sock : Socket) (type : Int)
    (path : Option (List Char)) (resp_info : response_info_t) : Option Written :=
  match constructResponse rt w type path resp_info with
  | none => none
  | some none => some (some (-1), [], sock)
  | some (some response) =>
    match writeResponse w sock response path resp_info with
    | (some r, evs, sock) => some (some (if r ≠ 0 then -1 else 0), evs, sock)
    | (none, evs, sock) => some (none, evs, sock)

/-- What the handler does on the outside: a write on the connection or the
opening of a file, the call of `freeResponseInfo`, the call of `close` on the
connection. -/
inductive Action where
  | io (e : Event)
  | freeResponseInfo
  | close
  deriving DecidableEq

/-- The last lines of every branch of `handler` after its last call of
`sendResponse`: `freeResponseInfo(resp_info); close(sockfd); return ret;`,
after the writes and opens `before` of an earlier call.  When `sendResponse`
has no return value, the handler does not get there. -/
def cleanup (before : List Event) (sent : Written) (ret : Int) : Option Int × List Action :=
  match sent with
  | (some _, evs, _) =>
    (some ret, (before ++ evs).map Action.io ++ [Action.freeResponseInfo, Action.close])
  | (none, evs, _) => (none, (before ++ evs).map Action.io)

/-- The function `handler(arg)` from the point where it has the descriptor of
the connection: the return value (`none` when `sendResponse` has none) and what
it does on the outside, in order.  `calloc_info` says whether the `calloc` of
`resp_info` succeeds; `rt` is the C library during the first call of
`sendResponse` and `retry` during the second.  There is no result when
`resp_info` is NULL (`sendResponse` passes it to `constructResponse`, which
reads `resp_info->isPathDir`) or when `readRequest`, `parseRequest`,
`parsePath` or `sendResponse` has none. -/
def handler (rt retry : Runtime) (w : World) (calloc_info : Bool) (conn : Incoming)
    (sock : Socket) : Option (Option Int × List Action) :=
  if !calloc_info then none
  else
    let resp_info := initResponseInfo
    match readRequest conn with
    | none => none
    | some (return_code, request) =>
      if return_code ≠ 0 then
        if return_code ≠ CODE_EMPTY_REQUEST then
          (sendResponse rt w sock return_code none resp_info).map (fun sent => cleanup [] sent (-1))
        else some (cleanup [] (some 0, [], sock) (-1))
      else
        match parseRequest request with
        | none => none
        | some (return_code, path) =>
          if return_code ≠ 0 then
            if return_code ≠ CODE_EMPTY_REQUEST then
              (sendResponse rt w sock return_code none resp_info).map
                (fun sent => cleanup [] sent (-1))
            else some (cleanup [] (some 0, [], sock) (-1))
          else
            match parsePath w path resp_info with
            | none => none
            | some (return_code, path, resp_info) =>
              if return_code ≠ 0 then
                (sendResponse rt w sock return_code (some path) resp_info).map
                  (fun sent => cleanup [] sent (-1))
              else
                match sendResponse rt w sock CODE_OK (some path) resp_info with
                | none => none
                | some (none, evs, _) => some (none, evs.map Action.io)
                | some (some r, evs, sock) =>
                  if r ≠ 0 then
                    (sendResponse retry w sock CODE_INTERNAL_ERROR none resp_info).map
                      (fun sent => cleanup evs sent (-1))
                  else some (cleanup [] (some 0, evs, sock) 0)

/-- The writes and opens among the actions of the handler, in order. -/
def eventsOf : List Action → List Event
  | [] => []
  | Action.io e :: as => e :: eventsOf as
  | _ :: as => eventsOf as

/-- The path that `parsePath` hands to the permission walk for a directory:
the absolute path, followed by the default document when an entry of the
directory has its name. -/
def walkTarget (absPath : List Char) (fileList : List (List Char)) : List Char :=
  if fileList.any (fun d_name => d_name == DEFAULT_FILE) then absPath ++ DEFAULT_FILE
  else absPath

/-! ## A small file system for the concrete cases -/

/-- A directory with mode `drwxr-xr-x`. -/
def dir755 : Stat := { st_mode := 0o040755, st_size := 4096, st_mtime := 0 }

/-- A regular file with mode `-rw-r--r--`. -/
def file644 : Stat := { st_mode := 0o100644, st_size := 1024, st_mtime := 0 }

/-- A regular file with mode `-rw-r-----`. -/
def file640 : Stat := { st_mode := 0o100640, st_size := 1024, st_mtime := 0 }

/-- The entries of the example file system: the server root `/srv/www`, the
file `/srv/etc/passwd` next to it (reached through `..`), the directory
`/srv/wwwx` whose name begins like the root, and a file of the root that others
may not read. -/
def exampleFiles : List (String × Stat) :=
  [("/srv", dir755), ("/srv/www", dir755), ("/srv/www/..", dir755),
   ("/srv/www/../etc", dir755), ("/srv/www/../etc/passwd", file644),
   ("/srv/wwwx", dir755), ("/srv/wwwx/f", file644),
   ("/srv/www/page.html", file644), ("/srv/www/secret.html", file640)]

/-- The call `stat` on a file system given by its entries. -/
def statOf (files : List (String × Stat)) (p : List Char) : Option Stat :=
  (files.find? (fun e => e.1.toList == p)).map (fun e => e.2)

/-- The example environment: the working directory is `/srv/www`. -/
def exampleWorld : World :=
  { getcwd := some "/srv/www".toList, calloc_ok := true, stat := statOf exampleFiles,
    scandir := fun _ => none, statbuf := { st_mode := 0, st_size := 0, st_mtime := 0 },
    contents := fun _ => none }

/-- An environment in which the directory of the server root lists an
`index.html` that cannot be stat-ed (a dangling symbolic link), and in which
the uninitialised `statbuf` of `hasPermissions` happens to hold the mode of a
readable regular file. -/
def staleWorld : World :=
  { getcwd := some "/srv/www".toList, calloc_ok := true,
    stat := statOf [("/srv/www", dir755), ("/srv/www/", dir755)],
    scandir := fun p => if p = "/srv/www/".toList then some [".".toList, "..".toList,
      "index.html".toList] else none,
    statbuf := file644, contents := fun _ => none }


/-! ## A small site for the concrete cases of the responses -/

/-- A clock that stands at the epoch, and a heap with room. -/
def exampleRuntime : Runtime :=
  { now := 0, strftime := fun _ => "Thu, 01 Jan 1970 00:00:00 GMT".toList,
    calloc_body := true, calloc_response := true }

/-- A file name of 230 characters. -/
def longName : List Char := List.replicate 230 'a'

/-- The entries of the site under the root `/srv/www`: a directory whose name
holds a space, a directory `sub` whose entry `index.html` is itself a
directory, a page, a directory `docs` with one file, and a directory `long`
with one file of a long name. -/
def siteFiles : List (String × Stat) :=
  [("/srv/www", dir755), ("/srv/www/my dir", dir755),
   ("/srv/www/sub", dir755), ("/srv/www/sub/", dir755), ("/srv/www/sub/index.html", dir755),
   ("/srv/www/file.html", file644),
   ("/srv/www/docs", dir755), ("/srv/www/docs/", dir755), ("/srv/www/docs/.", dir755),
   ("/srv/www/docs/..", dir755), ("/srv/www/docs/a.txt", file644),
   ("/srv/www/long", dir755), ("/srv/www/long/", dir755)]

/-- The environment of the site. -/
def siteWorld : World :=
  { getcwd := some "/srv/www".toList, calloc_ok := true,
    stat := fun p =>
      if p = "/srv/www/long/".toList ++ longName then some file644 else statOf siteFiles p,
    scandir := fun p =>
      if p = "/srv/www/sub/".toList then some [".".toList, "..".toList, "index.html".toList]
      else if p = "/srv/www/docs/".toList then some [".".toList, "..".toList, "a.txt".toList]
      else if p = "/srv/www/long/".toList then some [longName]
      else none,
    statbuf := { st_mode := 0, st_size := 0, st_mtime := 0 },
    contents := fun p =>
      if p = "/srv/www/file.html".toList then some "<p>hi</p>".toList
      else if p = "/srv/www/sub/index.html".toList then some []
      else none }

/-! ## Connections for the concrete cases -/

/-- A peer that sends the given bytes and closes; every `read` gets two of
them, the last one gets what is left. -/
def inTwos : List Char → Incoming
  | [] => []
  | [a] => [ReadResult.one a]
  | a :: b :: rest => ReadResult.two a b :: inTwos rest

/-- The environment of the site at a moment at which `getcwd` fails. -/
def lostWorld : World := { siteWorld with getcwd := none }

/-- A name of 210 characters. -/
def wideName : List Char := List.replicate 210 'a'

/-- An environment in which every path is a directory with mode `drwxr-xr-x`. -/
def wideWorld : World := { siteWorld with stat := fun _ => some dir755 }

/-! ## Directories inside and outside the root, for the concrete cases -/

/-- A directory with mode `drwxr-x---`. -/
def dir750 : Stat := { st_mode := 0o040750, st_size := 4096, st_mtime := 0 }

/-- The entries of a file system around the root `/srv/www`: the directories
`/srv/etc` and `/srv/private` next to the root (reached through `..`), the
directory `/srv/wwwx` whose name begins like the root, and the directory
`closed` of the root.  Others may not enter `private` and `closed`. -/
def openFiles : List (String × Stat) :=
  [("/srv", dir755), ("/srv/www", dir755), ("/srv/www/..", dir755),
   ("/srv/www/../etc", dir755), ("/srv/www/../etc/", dir755),
   ("/srv/www/../private", dir750), ("/srv/www/../private/", dir750),
   ("/srv/wwwx", dir755), ("/srv/wwwx/", dir755),
   ("/srv/www/closed", dir750), ("/srv/www/closed/", dir750)]

/-- The environment of these directories: the working directory is
`/srv/www`, and the server may list all of them. -/
def openWorld : World :=
  { getcwd := some "/srv/www".toList, calloc_ok := true, stat := statOf openFiles,
    scandir := fun p =>
      if p = "/srv/www/../etc/".toList then some [".".toList, "..".toList, "passwd".toList]
      else if p = "/srv/www/../private/".toList ∨ p = "/srv/wwwx/".toList
          ∨ p = "/srv/www/closed/".toList then some [".".toList, "..".toList]
      else none,
    statbuf := { st_mode := 0, st_size := 0, st_mtime := 0 },
    contents := fun _ => none }

/-! ## Lemmas on the string library -/

theorem startsWith_iff (s p : List Char) : startsWith s p = true ↔ ∃ t, s = p ++ t := by
  induction p generalizing s with
  | nil => simp [startsWith]
  | cons y ys ih =>
    cases s with
    | nil => simp [startsWith]
    | cons x xs =>
      simp only [startsWith, Bool.and_eq_true, beq_iff_eq, ih, List.cons_append, List.cons.injEq]
      constructor
      · rintro ⟨rfl, t, rfl⟩; exact ⟨t, rfl, rfl⟩
      · rintro ⟨t, rfl, rfl⟩; exact ⟨rfl, t, rfl⟩

theorem startsWith_pct20 (s : List Char) :
    startsWith s pct20 = true ↔ ∃ t, s = '%' :: '2' :: '0' :: t := by
  rw [startsWith_iff]; rfl

/-- What `strstr` finds: the offset of an occurrence, within the string. -/
theorem strstr_some (s p : List Char) (i : Nat) (h : strstr s p = some i) :
    s = s.take i ++ (p ++ s.drop (i + p.length)) := by
  induction s generalizing i with
  | nil =>
    simp only [strstr] at h
    split at h
    · subst_vars; simp
    · simp at h
  | cons x xs ih =>
    simp only [strstr] at h
    split at h
    · rename_i hs
      obtain ⟨t, ht⟩ := (startsWith_iff _ _).1 hs
      cases h
      simp [ht]
    · cases h1 : strstr xs p with
      | none => simp [h1] at h
      | some j =>
        simp only [h1, Option.map_some', Option.some.injEq] at h
        subst h
        have := ih j h1
        simp only [List.take_succ_cons, List.cons_append, List.cons.injEq, true_and]
        rw [show j + 1 + p.length = (j + p.length) + 1 by omega, List.drop_succ_cons]
        exact this

/-- When `strstr` finds nothing, the string contains no occurrence. -/
theorem strstr_none (s p : List Char) (h : strstr s p = none) : ¬ Contains s p := by
  induction s with
  | nil =>
    simp only [strstr] at h
    split at h
    · simp at h
    · rintro ⟨a, b, hab⟩
      have : a ++ p ++ b = [] := hab.symm
      simp at this
      tauto
  | cons x xs ih =>
    simp only [strstr] at h
    split at h
    · simp at h
    · rename_i hs
      cases h1 : strstr xs p with
      | some j => simp [h1] at h
      | none =>
        rintro ⟨a, b, hab⟩
        cases a with
        | nil =>
          apply hs
          rw [startsWith_iff]
          exact ⟨b, by simpa using hab⟩
        | cons y a =>
          simp only [List.cons_append, List.cons.injEq] at hab
          exact ih h1 ⟨a, b, by simpa using hab.2⟩

/-! ## Lemmas on `replaceSubstring` -/

theorem decodeSpaces_pct20 (r : List Char) :
    decodeSpaces ('%' :: '2' :: '0' :: r) = ' ' :: decodeSpaces r := by
  simp [decodeSpaces]

theorem decodeSpaces_cons (c : Char) (r : List Char) (h : startsWith (c :: r) pct20 = false) :
    decodeSpaces (c :: r) = c :: decodeSpaces r := by
  rcases r with _ | ⟨d, _ | ⟨e, r⟩⟩
  · simp [decodeSpaces]
  · simp [decodeSpaces]
  · have h2 : ¬ (c = '%' ∧ d = '2' ∧ e = '0') := by
      rintro ⟨rfl, rfl, rfl⟩
      simp [startsWith, pct20] at h
    simp [decodeSpaces, h2]

theorem countEscapes_pct20 (r : List Char) :
    countEscapes ('%' :: '2' :: '0' :: r) = countEscapes r + 1 := by
  simp [countEscapes]

theorem countEscapes_cons (c : Char) (r : List Char) (h : startsWith (c :: r) pct20 = false) :
    countEscapes (c :: r) = countEscapes r := by
  rcases r with _ | ⟨d, _ | ⟨e, r⟩⟩
  · simp [countEscapes]
  · simp [countEscapes]
  · have h2 : ¬ (c = '%' ∧ d = '2' ∧ e = '0') := by
      rintro ⟨rfl, rfl, rfl⟩
      simp [startsWith, pct20] at h
    simp [countEscapes, h2]

/-- Writing the space creates no occurrence that starts before it. -/
theorem startsWith_space (x : Char) (pre post : List Char)
    (h : startsWith (x :: (pre ++ '%' :: '2' :: '0' :: post)) pct20 = false) :
    startsWith (x :: (pre ++ ' ' :: post)) pct20 = false := by
  rcases pre with _ | ⟨a, _ | ⟨b, pre⟩⟩
  · simp [startsWith, pct20]
  · simp [startsWith, pct20]
  · simpa [startsWith, pct20] using h

/-- One round of the loop does not change what the specification computes. -/
theorem decodeSpaces_step (s : List Char) (i : Nat) (h : strstr s pct20 = some i) :
    decodeSpaces (s.take i ++ ([' '] ++ s.drop (i + pct20.length))) = decodeSpaces s := by
  induction s generalizing i with
  | nil => simp [strstr, pct20] at h
  | cons x xs ih =>
    simp only [strstr] at h
    split at h
    · rename_i hs
      obtain ⟨t, ht⟩ := (startsWith_pct20 _).1 hs
      cases h
      rw [ht, decodeSpaces_pct20]
      simp only [List.take_zero, List.nil_append, pct20, List.length_cons, List.length_nil,
        Nat.zero_add, List.drop_succ_cons, List.drop_zero, List.singleton_append]
      exact decodeSpaces_cons _ _ (by simp [startsWith, pct20])
    · rename_i hs
      have hs2 : startsWith (x :: xs) pct20 = false := by simpa using hs
      cases h1 : strstr xs pct20 with
      | none => simp [h1] at h
      | some j =>
        simp only [h1, Option.map_some', Option.some.injEq] at h
        subst h
        have hd := strstr_some xs pct20 j h1
        have hi := ih j h1
        rw [show j + 1 + pct20.length = (j + pct20.length) + 1 by omega]
        simp only [List.take_succ_cons, List.cons_append, List.drop_succ_cons]
        rw [decodeSpaces_cons x xs hs2]
        have hnew : startsWith (x :: (xs.take j ++ ' ' :: xs.drop (j + pct20.length))) pct20
            = false := by
          apply startsWith_space
          have : xs.take j ++ '%' :: '2' :: '0' :: xs.drop (j + pct20.length) = xs := by
            simpa [pct20] using hd.symm
          rw [this]; exact hs2
        have hi2 : decodeSpaces (xs.take j ++ ' ' :: xs.drop (j + pct20.length))
            = decodeSpaces xs := by simpa using hi
        simp only [List.nil_append]
        rw [decodeSpaces_cons _ _ hnew, hi2]

/-- A string without occurrence is left as it is by the specification. -/
theorem decodeSpaces_none (s : List Char) (h : strstr s pct20 = none) : decodeSpaces s = s := by
  induction s with
  | nil => rfl
  | cons x xs ih =>
    simp only [strstr] at h
    split at h
    · simp at h
    · rename_i hs
      have hs2 : startsWith (x :: xs) pct20 = false := by simpa using hs
      cases h1 : strstr xs pct20 with
      | some j => simp [h1] at h
      | none => rw [decodeSpaces_cons x xs hs2, ih h1]

/-- With fuel above the length of the string the loop ends on the decoded
string of the specification. -/
theorem replaceSubstringLoop_pct20 (fuel : Nat) (s : List Char) (h : s.length < fuel) :
    replaceSubstringLoop pct20 [' '] fuel s = some (decodeSpaces s) := by
  induction fuel generalizing s with
  | zero => omega
  | succ n ih =>
    simp only [replaceSubstringLoop]
    cases h1 : strstr s pct20 with
    | none => simp [decodeSpaces_none s h1]
    | some i =>
      simp only
      have hd := strstr_some s pct20 i h1
      have hl : (s.take i ++ ([' '] ++ s.drop (i + pct20.length))).length < n := by
        have := congrArg List.length hd
        simp only [List.length_append, pct20, List.length_cons, List.length_nil] at this ⊢
        omega
      rw [ih _ hl, decodeSpaces_step s i h1]

/-- The result of a finished loop contains no occurrence of the escape. -/
theorem replaceSubstringLoop_clean (orig replace : List Char) (fuel : Nat) (s r : List Char)
    (h : replaceSubstringLoop orig replace fuel s = some r) : ¬ Contains r orig := by
  induction fuel generalizing s with
  | zero => simp [replaceSubstringLoop] at h
  | succ n ih =>
    simp only [replaceSubstringLoop] at h
    cases h1 : strstr s orig with
    | none =>
      simp only [h1, Option.some.injEq] at h
      subst h
      exact strstr_none _ _ h1
    | some i =>
      simp only [h1] at h
      exact ih _ h

theorem decodeSpaces_length (s : List Char) :
    (decodeSpaces s).length + 2 * countEscapes s = s.length := by
  induction s using decodeSpaces.induct with
  | case1 => simp [decodeSpaces, countEscapes]
  | case2 c => simp [decodeSpaces, countEscapes]
  | case3 c d => simp [decodeSpaces, countEscapes]
  | case4 c d e rest h ih =>
    simp only [decodeSpaces, countEscapes, h, and_self, if_true, List.length_cons]
    omega
  | case5 c d e rest h ih =>
    simp only [decodeSpaces, countEscapes, h, if_false, List.length_cons] at ih ⊢
    omega

/-! ## Lemmas on `get_mime_type` -/

/-- What `strrchr` finds: the last occurrence of the character. -/
theorem strrchr_spec (s : List Char) (c : Char) :
    match strrchr s c with
    | none => c ∉ s
    | some i => ∃ a b, s = a ++ c :: b ∧ a.length = i ∧ c ∉ b := by
  induction s with
  | nil => simp [strrchr]
  | cons x xs ih =>
    simp only [strrchr]
    cases h : strrchr xs c with
    | some j =>
      rw [h] at ih
      obtain ⟨a, b, hab, hlen, hb⟩ := ih
      exact ⟨x :: a, b, by simp [hab], by simp [hlen], hb⟩
    | none =>
      rw [h] at ih
      by_cases hx : x = c
      · simp only [hx, if_true]
        exact ⟨[], xs, by simp, rfl, ih⟩
      · simp only [hx, if_false]
        simp only [List.mem_cons, not_or]
        exact ⟨fun h2 => hx h2.symm, ih⟩

theorem takeWhile_ne_append (c : Char) (b rest : List Char) (hb : c ∉ b) :
    (b ++ c :: rest).takeWhile (fun x => x != c) = b := by
  induction b with
  | nil => simp [List.takeWhile]
  | cons y ys ih =>
    simp only [List.mem_cons, not_or] at hb
    have hy : (y != c) = true := by simpa using fun h => hb.1 h.symm
    simp [List.takeWhile, hy, ih hb.2]

/-- The comparisons of `get_mime_type` on an extension `.b` and the lookup
of `b` in the table of the spec give the same type. -/
theorem mime_chain_eq_table (b : List Char) :
    (if '.' :: b = ".html".toList ∨ '.' :: b = ".htm".toList then some "text/html".toList
    else if '.' :: b = ".jpg".toList ∨ '.' :: b = ".jpeg".toList then some "image/jpeg".toList
    else if '.' :: b = ".gif".toList then some "image/gif".toList
    else if '.' :: b = ".png".toList then some "image/png".toList
    else if '.' :: b = ".css".toList then some "text/css".toList
    else if '.' :: b = ".au".toList then some "audio/basic".toList
    else if '.' :: b = ".wav".toList then some "audio/wav".toList
    else if '.' :: b = ".avi".toList then some "video/x-msvideo".toList
    else if '.' :: b = ".mpeg".toList ∨ '.' :: b = ".mpg".toList then some "video/mpeg".toList
    else if '.' :: b = ".mp3".toList then some "audio/mpeg".toList
    else none)
    = (mimeTable.find? (fun r => r.1.toList == b)).map (fun r => r.2.toList) := by
  by_cases h1 : b = "html".toList
  · subst h1; decide
  by_cases h2 : b = "htm".toList
  · subst h2; decide
  by_cases h3 : b = "jpg".toList
  · subst h3; decide
  by_cases h4 : b = "jpeg".toList
  · subst h4; decide
  by_cases h5 : b = "gif".toList
  · subst h5; decide
  by_cases h6 : b = "png".toList
  · subst h6; decide
  by_cases h7 : b = "css".toList
  · subst h7; decide
  by_cases h8 : b = "au".toList
  · subst h8; decide
  by_cases h9 : b = "wav".toList
  · subst h9; decide
  by_cases h10 : b = "avi".toList
  · subst h10; decide
  by_cases h11 : b = "mpeg".toList
  · subst h11; decide
  by_cases h12 : b = "mpg".toList
  · subst h12; decide
  by_cases h13 : b = "mp3".toList
  · subst h13; decide
  have e1 : ".html".toList = '.' :: "html".toList := rfl
  have e2 : ".htm".toList = '.' :: "htm".toList := rfl
  have e3 : ".jpg".toList = '.' :: "jpg".toList := rfl
  have e4 : ".jpeg".toList = '.' :: "jpeg".toList := rfl
  have e5 : ".gif".toList = '.' :: "gif".toList := rfl
  have e6 : ".png".toList = '.' :: "png".toList := rfl
  have e7 : ".css".toList = '.' :: "css".toList := rfl
  have e8 : ".au".toList = '.' :: "au".toList := rfl
  have e9 : ".wav".toList = '.' :: "wav".toList := rfl
  have e10 : ".avi".toList = '.' :: "avi".toList := rfl
  have e11 : ".mpeg".toList = '.' :: "mpeg".toList := rfl
  have e12 : ".mpg".toList = '.' :: "mpg".toList := rfl
  have e13 : ".mp3".toList = '.' :: "mp3".toList := rfl
  have n1 : (['h', 't', 'm', 'l'] == b) = false := beq_eq_false_iff_ne.2 (Ne.symm h1)
  have n2 : (['h', 't', 'm'] == b) = false := beq_eq_false_iff_ne.2 (Ne.symm h2)
  have n3 : (['j', 'p', 'g'] == b) = false := beq_eq_false_iff_ne.2 (Ne.symm h3)
  have n4 : (['j', 'p', 'e', 'g'] == b) = false := beq_eq_false_iff_ne.2 (Ne.symm h4)
  have n5 : (['g', 'i', 'f'] == b) = false := beq_eq_false_iff_ne.2 (Ne.symm h5)
  have n6 : (['p', 'n', 'g'] == b) = false := beq_eq_false_iff_ne.2 (Ne.symm h6)
  have n7 : (['c', 's', 's'] == b) = false := beq_eq_false_iff_ne.2 (Ne.symm h7)
  have n8 : (['a', 'u'] == b) = false := beq_eq_false_iff_ne.2 (Ne.symm h8)
  have n9 : (['w', 'a', 'v'] == b) = false := beq_eq_false_iff_ne.2 (Ne.symm h9)
  have n10 : (['a', 'v', 'i'] == b) = false := beq_eq_false_iff_ne.2 (Ne.symm h10)
  have n11 : (['m', 'p', 'e', 'g'] == b) = false := beq_eq_false_iff_ne.2 (Ne.symm h11)
  have n12 : (['m', 'p', 'g'] == b) = false := beq_eq_false_iff_ne.2 (Ne.symm h12)
  have n13 : (['m', 'p', '3'] == b) = false := beq_eq_false_iff_ne.2 (Ne.symm h13)
  simp only [e1, e2, e3, e4, e5, e6, e7, e8, e9, e10, e11, e12, e13, List.cons.injEq, true_and,
    h1, h2, h3, h4, h5, h6, h7, h8, h9, h10, h11, h12, h13, or_self, if_false]
  simp [mimeTable, List.find?, n1, n2, n3, n4, n5, n6, n7, n8, n9, n10, n11, n12, n13]

theorem get_mime_type_eq_classify (name : List Char) : get_mime_type name = classify name := by
  have hs := strrchr_spec name '.'
  unfold get_mime_type classify extensionOf
  cases h : strrchr name '.' with
  | none =>
    rw [h] at hs
    simp [hs]
  | some i =>
    rw [h] at hs
    obtain ⟨a, b, hab, hlen, hb⟩ := hs
    have hmem : '.' ∈ name := by rw [hab]; simp
    have hdrop : name.drop i = '.' :: b := by
      rw [hab, ← hlen]; simp
    have hext : (name.reverse.takeWhile (fun c => c != '.')).reverse = b := by
      rw [hab]
      simp only [List.reverse_append, List.reverse_cons, List.append_assoc, List.singleton_append]
      rw [takeWhile_ne_append '.' b.reverse a.reverse (by simpa using hb)]
      simp
    simp only [hmem, if_true, hext, hdrop]
    exact mime_chain_eq_table b

/-! ## Lemmas on `parseRequest` -/

theorem skipSpace_blank (pre s : List Char) (hpre : Blank pre) :
    skipSpace (pre ++ s) = skipSpace s := by
  induction pre with
  | nil => rfl
  | cons c cs ih =>
    have hc : isspace c = true := hpre c (by simp)
    have hcs : Blank cs := fun d hd => hpre d (by simp [hd])
    simp only [skipSpace, List.cons_append, List.dropWhile_cons, hc, if_true]
    exact ih hcs

theorem skipSpace_token (tok rest : List Char) (htok : Token tok) :
    skipSpace (tok ++ rest) = tok ++ rest := by
  obtain ⟨hne, hall⟩ := htok
  cases tok with
  | nil => exact absurd rfl hne
  | cons c cs =>
    have hc : isspace c = false := hall c (by simp)
    simp [skipSpace, List.dropWhile_cons, hc]

theorem skipSpace_only_blank (pre : List Char) (hpre : Blank pre) : skipSpace pre = [] := by
  have := skipSpace_blank pre [] hpre
  simpa [skipSpace] using this

theorem takeWhile_token (tok rest : List Char) (hall : ∀ c ∈ tok, isspace c = false)
    (hrest : Rest rest) : (tok ++ rest).takeWhile (fun c => !isspace c) = tok := by
  induction tok with
  | nil =>
    rcases hrest with rfl | ⟨c, r, rfl, hc⟩
    · rfl
    · simp [List.takeWhile_cons, hc]
  | cons c cs ih =>
    have hc : isspace c = false := hall c (by simp)
    have hcs : ∀ d ∈ cs, isspace d = false := fun d hd => hall d (by simp [hd])
    simp [List.takeWhile_cons, hc, ih hcs]

theorem Blank.rest (s t : List Char) (hs : Blank s) (hne : s ≠ []) : Rest (s ++ t) := by
  cases s with
  | nil => exact absurd rfl hne
  | cons c cs => exact Or.inr ⟨c, cs ++ t, rfl, hs c (by simp)⟩

theorem Token.drop (tok : List Char) (n : Nat) (htok : Token tok) (h : n < tok.length) :
    Token (tok.drop n) := by
  refine ⟨?_, fun c hc => htok.2 c (List.mem_of_mem_drop hc)⟩
  intro h0
  have := congrArg List.length h0
  simp at this
  omega

/-- The conversion `%s` without width on white space, a token and what follows it. -/
theorem scanString_token (pre tok rest : List Char) (hpre : Blank pre) (htok : Token tok)
    (hrest : Rest rest) : scanString none (pre ++ (tok ++ rest)) = some (tok, rest) := by
  unfold scanString
  rw [skipSpace_blank _ _ hpre, skipSpace_token _ _ htok]
  have hne : tok ++ rest ≠ [] := by
    intro h; exact htok.1 (List.append_eq_nil.1 h).1
  simp [hne, takeWhile_token tok rest htok.2 hrest]

/-- The conversion `%ns` on white space, a token and what follows it. -/
theorem scanString_width (n : Nat) (pre tok rest : List Char) (hpre : Blank pre)
    (htok : Token tok) (hrest : Rest rest) :
    scanString (some n) (pre ++ (tok ++ rest)) = some (tok.take n, tok.drop n ++ rest) := by
  unfold scanString
  rw [skipSpace_blank _ _ hpre, skipSpace_token _ _ htok]
  have hne : tok ++ rest ≠ [] := by
    intro h; exact htok.1 (List.append_eq_nil.1 h).1
  simp only [hne, if_false, takeWhile_token tok rest htok.2 hrest, Option.some.injEq,
    Prod.mk.injEq, true_and]
  rcases Nat.lt_or_ge n tok.length with h | h
  · rw [List.length_take, Nat.min_eq_left (Nat.le_of_lt h), List.drop_append_of_le_length
      (Nat.le_of_lt h)]
  · rw [List.take_of_length_le h, List.drop_of_length_le h, List.drop_left]
    rfl

/-- At the end of the input, after white space only, a conversion fails. -/
theorem scanString_blank (w : Option Nat) (pre : List Char) (hpre : Blank pre) :
    scanString w pre = none := by
  unfold scanString
  simp [skipSpace_only_blank pre hpre]

/-- The cut of `parseRequest` leaves the first line of the request. -/
theorem cut_eq_firstLine (request : List Char) :
    (match strchr request '\r' with
      | some cut => request.take cut
      | none => request) = firstLine request := by
  induction request with
  | nil => rfl
  | cons c cs ih =>
    simp only [strchr, firstLine, List.takeWhile_cons]
    by_cases hc : c = '\r'
    · simp [hc]
    · have hc2 : (c != '\r') = true := by simpa using hc
      simp only [hc, if_false, hc2, if_true]
      cases h : strchr cs '\r' with
      | none =>
        rw [h] at ih
        simp only [Option.map_none']
        rw [← firstLine, ← ih]
      | some j =>
        rw [h] at ih
        simp only [Option.map_some', List.take_succ_cons]
        rw [← firstLine, ← ih]

/-- The three fields that `sscanf` assigns on a line of three tokens or more,
the first of at most three characters. -/
theorem sscanfRequest_three (line m p q : List Char) (h : ThreeTokens line m p q)
    (hlen : m.length ≤ 3) :
    sscanfRequest line = some (3, m, p, q.take 8) := by
  obtain ⟨pre, s1, s2, rest, rfl, hpre, hm, hs1, hs1n, hp, hs2, hs2n, hq, hrest⟩ := h
  have hR1 : Rest (s1 ++ (p ++ (s2 ++ (q ++ rest)))) := Blank.rest _ _ hs1 hs1n
  have hR2 : Rest (s2 ++ (q ++ rest)) := Blank.rest _ _ hs2 hs2n
  have hsk1 : skipSpace (s1 ++ (p ++ (s2 ++ (q ++ rest)))) = p ++ (s2 ++ (q ++ rest)) := by
    rw [skipSpace_blank _ _ hs1, skipSpace_token _ _ hp]
  have hsk2 : skipSpace (s2 ++ (q ++ rest)) = q ++ rest := by
    rw [skipSpace_blank _ _ hs2, skipSpace_token _ _ hq]
  have hnil : Blank ([] : List Char) := fun c hc => by simp at hc
  have h4 : m.length ≤ 4 := by omega
  have hfit : ¬ 4 ≤ (m.take 4).length := by
    rw [List.take_of_length_le h4]; omega
  unfold sscanfRequest
  rw [scanString_width 4 pre m _ hpre hm hR1]
  simp only [hfit, if_false]
  rw [List.drop_of_length_le h4, List.nil_append, hsk1]
  have e1 := scanString_token [] p _ hnil hp hR2
  rw [List.nil_append] at e1
  rw [e1]
  simp only
  rw [hsk2]
  have e2 := scanString_width 8 [] q rest hnil hq hrest
  rw [List.nil_append] at e2
  rw [e2, List.take_of_length_le h4]

/-- On a line whose first token has four characters or more, `sscanf` has no
result: `%4s` stores four characters and a terminator in `char method[4]`. -/
theorem sscanfRequest_long_method (pre m rest : List Char) (hpre : Blank pre) (hm : Token m)
    (hrest : Rest rest) (hlen : 4 ≤ m.length) :
    sscanfRequest (pre ++ (m ++ rest)) = none := by
  have hfit : 4 ≤ (m.take 4).length := by
    rw [List.length_take]; omega
  unfold sscanfRequest
  rw [scanString_width 4 pre m _ hpre hm hrest]
  simp only [hfit, if_true]

/-- The method buffer holds `GET` exactly when the first token is `GET`. -/
theorem take4_eq_GET (m : List Char) : m.take 4 = "GET".toList ↔ m = "GET".toList := by
  constructor
  · intro h
    have hl := congrArg List.length h
    rw [List.length_take] at hl
    have h3 : "GET".toList.length = 3 := rfl
    rw [h3] at hl
    have : m.length ≤ 4 := by omega
    rwa [List.take_of_length_le this] at h
  · intro h; subst h; rfl

/-- The function on a request whose first line has three tokens or more, the
first of at most three characters. -/
theorem parseRequest_three (request m p q : List Char)
    (h : ThreeTokens (firstLine request) m p q) (hlen : m.length ≤ 3) :
    parseRequest request =
      if m ≠ "GET".toList then some (CODE_NOT_SUPPORTED, p)
      else if q.take 8 ≠ "HTTP/1.0".toList ∧ q.take 8 ≠ "HTTP/1.1".toList then
        some (CODE_BAD, p)
      else if startsWith p "http".toList then
        match strchr (p.drop 7) '/' with
        | none => none
        | some i => some (0, (p.drop 7).drop i)
      else some (0, p) := by
  unfold parseRequest
  rw [cut_eq_firstLine]
  simp only []
  rw [sscanfRequest_three _ m p q h hlen]
  have h7 : "http://".toList.length = 7 := rfl
  simp only [NUM_OF_EXPECTED_TOKENS, ne_eq, not_true_eq_false, if_false, h7]

theorem strchr_append (a b : List Char) (c : Char) (ha : c ∉ a) :
    strchr (a ++ c :: b) c = some a.length := by
  induction a with
  | nil => simp [strchr]
  | cons x xs ih =>
    simp only [List.mem_cons, not_or] at ha
    have hx : ¬ x = c := fun h => ha.1 h.symm
    simp [strchr, hx, ih ha.2]

theorem Blank.toRest (s : List Char) (hs : Blank s) : Rest s := by
  cases s with
  | nil => exact Or.inl rfl
  | cons c cs => exact Or.inr ⟨c, cs, rfl, hs c (by simp)⟩

/-- On a line of fewer than three tokens, the first of at most three
characters, `sscanf` assigns fewer than three fields. -/
theorem sscanfRequest_few (line : List Char)
    (h : NoToken line ∨ (∃ m, OneToken line m ∧ m.length ≤ 3) ∨
      (∃ m p, TwoTokens line m p ∧ m.length ≤ 3)) :
    ∃ r, sscanfRequest line = some r ∧ r.1 ≠ 3 := by
  have hnil : Blank ([] : List Char) := fun c hc => by simp at hc
  rcases h with h | ⟨m, ⟨pre, s, rfl, hpre, hm, hs⟩, hlen⟩ |
    ⟨m, p, ⟨pre, s1, s2, rfl, hpre, hm, hs1, hs1n, hp, hs2⟩, hlen⟩
  · unfold sscanfRequest
    rw [scanString_blank _ _ h]
    exact ⟨_, rfl, by decide⟩
  · have h4 : m.length ≤ 4 := by omega
    have hfit : ¬ 4 ≤ (m.take 4).length := by
      rw [List.take_of_length_le h4]; omega
    unfold sscanfRequest
    rw [scanString_width 4 pre m s hpre hm (Blank.toRest s hs)]
    simp only [hfit, if_false]
    rw [List.drop_of_length_le h4, List.nil_append, skipSpace_only_blank s hs,
      scanString_blank _ _ hnil]
    exact ⟨_, rfl, by simp⟩
  · have h4 : m.length ≤ 4 := by omega
    have hfit : ¬ 4 ≤ (m.take 4).length := by
      rw [List.take_of_length_le h4]; omega
    unfold sscanfRequest
    rw [scanString_width 4 pre m _ hpre hm (Blank.rest _ _ hs1 hs1n)]
    simp only [hfit, if_false]
    rw [List.drop_of_length_le h4, List.nil_append, skipSpace_blank _ _ hs1,
      skipSpace_token _ _ hp]
    have e1 := scanString_token [] p s2 hnil hp (Blank.toRest s2 hs2)
    rw [List.nil_append] at e1
    rw [e1]
    simp only
    rw [skipSpace_only_blank s2 hs2, scanString_blank _ _ hnil]
    exact ⟨_, rfl, by simp⟩

/-- The function answers Bad when `sscanf` does not assign its three fields. -/
theorem parseRequest_unassigned (request : List Char)
    (r : Int × List Char × List Char × List Char)
    (hs : sscanfRequest (firstLine request) = some r) (h : r.1 ≠ 3) :
    (parseRequest request).map Prod.fst = some CODE_BAD := by
  obtain ⟨assigned, method, path, protocol⟩ := r
  unfold parseRequest
  rw [cut_eq_firstLine]
  simp only []
  rw [hs]
  simp only [NUM_OF_EXPECTED_TOKENS]
  rw [if_pos h]
  rfl

/-- The function has no result when the first token of the line has four
characters or more. -/
theorem parseRequest_long_method (request pre m rest : List Char)
    (hline : firstLine request = pre ++ (m ++ rest)) (hpre : Blank pre) (hm : Token m)
    (hrest : Rest rest) (hlen : 4 ≤ m.length) :
    parseRequest request = none := by
  unfold parseRequest
  rw [cut_eq_firstLine]
  simp only []
  rw [hline, sscanfRequest_long_method pre m rest hpre hm hrest hlen]


/-! ## Lemmas on `hasPermissions` -/

theorem strrchr_append (a b : List Char) (c : Char) :
    strrchr (a ++ b) c =
      match strrchr b c with
      | some j => some (a.length + j)
      | none => strrchr a c := by
  induction a with
  | nil => cases h : strrchr b c <;> simp [h, strrchr]
  | cons x xs ih =>
    have e : strrchr (x :: (xs ++ b)) c =
        match strrchr (xs ++ b) c with
        | some i => some (i + 1)
        | none => if x = c then some 0 else none := rfl
    have e2 : strrchr (x :: xs) c =
        match strrchr xs c with
        | some i => some (i + 1)
        | none => if x = c then some 0 else none := rfl
    rw [List.cons_append, e, ih]
    cases h : strrchr b c with
    | some j =>
      simp only [List.length_cons, Option.some.injEq]
      omega
    | none =>
      simp only
      rw [e2]

theorem strrchr_lt (s : List Char) (c : Char) (j : Nat) (h : strrchr s c = some j) :
    j < s.length := by
  have := strrchr_spec s c
  rw [h] at this
  obtain ⟨a, b, hab, hlen, _⟩ := this
  rw [hab, ← hlen]; simp

theorem strrchr_cons_self (c : Char) (b : List Char) : ∃ j, strrchr (c :: b) c = some j := by
  have := strrchr_spec (c :: b) c
  cases h : strrchr (c :: b) c with
  | some j => exact ⟨j, rfl⟩
  | none => rw [h] at this; simp at this

/-- The two tests of the loop on `statbuf` are the negation of the policy. -/
theorem tests_eq_policy (st : Stat) :
    ((S_ISDIR st.st_mode && (st.st_mode &&& S_IXOTH == 0)) || (st.st_mode &&& S_IROTH == 0))
      = !policy st := by
  unfold policy
  cases S_ISDIR st.st_mode <;> cases h1 : (st.st_mode &&& S_IXOTH == 0) <;>
    cases h2 : (st.st_mode &&& S_IROTH == 0) <;> simp_all [bne]

/-- One round of the loop. -/
theorem hasPermissionsLoop_succ (stat : List Char → Option Stat) (root : List Char) (fuel : Nat)
    (t : List Char) (statbuf : Stat) :
    hasPermissionsLoop stat root (fuel + 1) t statbuf =
      match strrchr t '/' with
      | none => some 0
      | some s =>
        if policy ((stat t).getD statbuf) = false then some (-1)
        else if root = t then some 0
        else hasPermissionsLoop stat root fuel (t.take s) ((stat t).getD statbuf) := by
  have hg : (match stat t with
      | some st => st
      | none => statbuf) = (stat t).getD statbuf := by
    cases stat t <;> rfl
  simp only [hasPermissionsLoop, hg]
  cases strrchr t '/' with
  | none => rfl
  | some s =>
    simp only
    have ht := tests_eq_policy ((stat t).getD statbuf)
    cases hp : policy ((stat t).getD statbuf)
    · rw [hp] at ht
      simp only [Bool.not_false, Bool.or_eq_true] at ht
      rcases ht with ht | ht
      · simp [ht]
      · cases hA : (S_ISDIR ((stat t).getD statbuf).st_mode &&
            (((stat t).getD statbuf).st_mode &&& S_IXOTH == 0))
        · simp [ht]
        · simp
    · rw [hp] at ht
      simp only [Bool.not_true, Bool.or_eq_false_iff] at ht
      simp [ht.1, ht.2]

/-- With fuel above the length of the string the loop of `hasPermissions`
returns. -/
theorem hasPermissionsLoop_returns (stat : List Char → Option Stat) (root : List Char)
    (fuel : Nat) (t : List Char) (sb : Stat) (h : t.length < fuel) :
    (hasPermissionsLoop stat root fuel t sb).isSome = true := by
  induction fuel generalizing t sb with
  | zero => omega
  | succ n ih =>
    rw [hasPermissionsLoop_succ]
    cases hs : strrchr t '/' with
    | none => rfl
    | some s =>
      simp only
      have hlt := strrchr_lt t '/' s hs
      have hlen : (t.take s).length < n := by
        rw [List.length_take]
        omega
      split
      · rfl
      · split
        · rfl
        · exact ih _ _ hlen

/-- Cutting a string below the root at its last `/` gives a string at or
below the root. -/
theorem cut_below (root b : List Char) :
    ∃ i s2, strrchr (root ++ '/' :: b) '/' = some i ∧ (root ++ '/' :: b).take i = root ++ s2 ∧
      Below s2 ∧ s2.length < ('/' :: b).length := by
  obtain ⟨j, hj⟩ := strrchr_cons_self '/' b
  refine ⟨root.length + j, ('/' :: b).take j, ?_, ?_, ?_, ?_⟩
  · rw [strrchr_append, hj]
  · rw [List.take_append]
  · cases j with
    | zero => exact Or.inl rfl
    | succ k => exact Or.inr ⟨b.take k, rfl⟩
  · have := strrchr_lt _ _ _ hj
    rw [List.length_take]
    omega

theorem policy_of_permitted (stat : List Char → Option Stat) (t : List Char) (sb : Stat)
    (h : permitted stat t = true) : policy ((stat t).getD sb) = true := by
  unfold permitted at h
  cases hst : stat t with
  | none => simp [hst] at h
  | some st => simpa [hst] using h

theorem permitted_of_policy (stat : List Char → Option Stat) (t : List Char) (sb : Stat)
    (hex : (stat t).isSome = true) (h : policy ((stat t).getD sb) = true) :
    permitted stat t = true := by
  unfold permitted
  cases hst : stat t with
  | none => simp [hst] at hex
  | some st => simpa [hst] using h

/-- The walk from a string at or below an absolute root: the chain of cuts
reaches the root; the loop returns 0 or -1; it returns 0 when every string of
the chain up to the root satisfies the policy; and when it returns 0 and all
those strings can be stat-ed, they all satisfy the policy. -/
theorem walk_spec (stat : List Char → Option Stat) (root r : List Char) (hroot : root = '/' :: r)
    (fuel : Nat) (s : List Char) (sb : Stat) (hs : Below s) (hf : (root ++ s).length < fuel) :
    root ∈ cutChainFrom fuel (root ++ s) ∧
    ∃ flag, hasPermissionsLoop stat root fuel (root ++ s) sb = some flag ∧
      (flag = 0 ∨ flag = -1) ∧
      ((∀ p ∈ upTo root (cutChainFrom fuel (root ++ s)), permitted stat p = true) → flag = 0) ∧
      (flag = 0 → (∀ p ∈ upTo root (cutChainFrom fuel (root ++ s)), (stat p).isSome = true) →
        ∀ p ∈ upTo root (cutChainFrom fuel (root ++ s)), permitted stat p = true) := by
  induction fuel generalizing s sb with
  | zero => omega
  | succ n ih =>
    rcases hs with rfl | ⟨b, rfl⟩
    · rw [List.append_nil]
      obtain ⟨j, hj⟩ : ∃ j, strrchr root '/' = some j := by
        rw [hroot]; exact strrchr_cons_self '/' r
      have hchain : upTo root (cutChainFrom (n + 1) root) = [root] := by
        simp [cutChainFrom, upTo]
      refine ⟨by simp [cutChainFrom], ?_⟩
      rw [hasPermissionsLoop_succ, hj, hchain]
      simp only [if_true]
      cases hp : policy ((stat root).getD sb)
      · refine ⟨-1, by simp, Or.inr rfl, ?_, ?_⟩
        · intro hall
          have := policy_of_permitted stat root sb (hall root (by simp))
          rw [hp] at this
          cases this
        · intro h0; cases h0
      · refine ⟨0, by simp, Or.inl rfl, fun _ => rfl, ?_⟩
        intro _ hex p hpm
        simp only [List.mem_singleton] at hpm
        subst hpm
        exact permitted_of_policy stat _ sb (hex _ (by simp)) hp
    · obtain ⟨i, s2, hi, htake, hs2, hlen⟩ := cut_below root b
      have hne : ¬ root = root ++ '/' :: b := by
        intro h
        have := congrArg List.length h
        simp at this
      have hne2 : ¬ root ++ '/' :: b = root := fun h => hne h.symm
      have hf2 : (root ++ s2).length < n := by
        simp only [List.length_append, List.length_cons] at hf hlen ⊢
        omega
      obtain ⟨hmem, flag2, hloop, hflag, hB, hA⟩ :=
        ih s2 ((stat (root ++ '/' :: b)).getD sb) hs2 hf2
      have hcf : cutChainFrom (n + 1) (root ++ '/' :: b)
          = (root ++ '/' :: b) :: cutChainFrom n (root ++ s2) := by
        simp [cutChainFrom, hi, htake]
      have hchain : upTo root (cutChainFrom (n + 1) (root ++ '/' :: b))
          = (root ++ '/' :: b) :: upTo root (cutChainFrom n (root ++ s2)) := by
        rw [hcf]; simp [upTo, hne2]
      refine ⟨by rw [hcf]; exact List.mem_cons_of_mem _ hmem, ?_⟩
      rw [hasPermissionsLoop_succ, hi, hchain]
      simp only [hne, if_false, htake]
      cases hp : policy ((stat (root ++ '/' :: b)).getD sb)
      · refine ⟨-1, by simp, Or.inr rfl, ?_, ?_⟩
        · intro hall
          have := policy_of_permitted stat _ sb (hall (root ++ '/' :: b) (List.mem_cons_self _ _))
          rw [hp] at this
          cases this
        · intro h0; cases h0
      · refine ⟨flag2, by simpa using hloop, hflag, ?_, ?_⟩
        · intro hall
          exact hB (fun p hpm => hall p (List.mem_cons_of_mem _ hpm))
        · intro h0 hex p hpm
          rcases List.mem_cons.1 hpm with rfl | hpm
          · exact permitted_of_policy stat _ sb (hex _ (List.mem_cons_self _ _)) hp
          · exact hA h0 (fun q hq => hex q (List.mem_cons_of_mem _ hq)) p hpm

/-- The function on a path made of an absolute root and a part that begins
with `/`: it has a result, which `walk_spec` describes. -/
theorem hasPermissions_below (stat : List Char → Option Stat) (sb : Stat) (root r b : List Char)
    (hroot : root = '/' :: r) :
    hasPermissions stat sb (root ++ '/' :: b) root
      = hasPermissionsLoop stat root ((root ++ '/' :: b).length + 1) (root ++ '/' :: b) sb := by
  unfold hasPermissions
  have : strchr (root ++ '/' :: b) '/' = some 0 := by
    rw [hroot]; simp [strchr]
  rw [this]
  simp

/-! ## Lemmas on `parsePath` and `writeResponse` -/

/-- The call of `parsePath` to `replaceSubstring` returns, with the decoded path. -/
theorem replaceSubstring_eq (path : List Char) :
    replaceSubstring path "%20".toList " ".toList = some (0, decodeSpaces path) := by
  show replaceSubstring path pct20 [' '] = _
  unfold replaceSubstring
  have h : ¬ ([' '].length > pct20.length) := by decide
  rw [if_neg h, replaceSubstringLoop_pct20 _ _ (Nat.lt_succ_self _)]
  rfl

/-- What a result of `parsePath` tells about the run: the path is the decoded
one; with Forbidden the flags are `foundFile = 0` and `isPathDir = 1` and the
target is neither directory nor regular file or the walk failed; with 0 the
walk succeeded.  The walk is on the decoded path under the working directory,
with the default document appended when the directory has one. -/
theorem parsePath_inv (w : World) (path path2 : List Char) (code : Int) (ri : response_info_t)
    (h : parsePath w path initResponseInfo = some (code, path2, ri)) :
    path2 = decodeSpaces path ∧
    (code = CODE_FORBIDDEN → ri.foundFile = 0 ∧ ri.isPathDir = 1 ∧
      ∃ root absPath st, w.getcwd = some root ∧ ri.absPath = some absPath ∧
        w.stat (root ++ decodeSpaces path) = some st ∧
        (absPath = root ++ decodeSpaces path ∨
          absPath = root ++ (decodeSpaces path ++ DEFAULT_FILE)) ∧
        ((S_ISDIR st.st_mode = false ∧ S_ISREG st.st_mode = false) ∨
          ∃ flag, hasPermissions w.stat w.statbuf absPath root = some flag ∧ flag ≠ 0)) ∧
    (code = 0 → ∃ root absPath, w.getcwd = some root ∧ ri.absPath = some absPath ∧
        (absPath = root ++ decodeSpaces path ∨
          absPath = root ++ (decodeSpaces path ++ DEFAULT_FILE)) ∧
        hasPermissions w.stat w.statbuf absPath root = some 0) := by
  unfold parsePath at h
  rw [replaceSubstring_eq] at h
  simp only at h
  repeat' split at h
  all_goals simp only [Option.some.injEq, Prod.mk.injEq, reduceCtorEq] at h
  all_goals obtain ⟨rfl, rfl, rfl⟩ := h
  all_goals simp_all [CODE_FORBIDDEN, CODE_NOT_FOUND, CODE_FOUND, CODE_INTERNAL_ERROR,
    initResponseInfo]

/-- The function on an absolute root followed by a part that begins with
`/`: the chain of cuts reaches the root; the function returns 0 or -1; it
returns 0 when every string of the chain up to the root satisfies the policy;
and when it returns 0 and all those strings can be stat-ed, they all satisfy
the policy. -/
theorem hasPermissions_spec (stat : List Char → Option Stat) (sb : Stat) (root r b : List Char)
    (hroot : root = '/' :: r) :
    root ∈ cutChain (root ++ '/' :: b) ∧
    ∃ flag, hasPermissions stat sb (root ++ '/' :: b) root = some flag ∧
      (flag = 0 ∨ flag = -1) ∧
      ((∀ p ∈ upTo root (cutChain (root ++ '/' :: b)), permitted stat p = true) → flag = 0) ∧
      (flag = 0 → (∀ p ∈ upTo root (cutChain (root ++ '/' :: b)), (stat p).isSome = true) →
        ∀ p ∈ upTo root (cutChain (root ++ '/' :: b)), permitted stat p = true) := by
  rw [hasPermissions_below stat sb root r b hroot]
  exact walk_spec stat root r hroot _ ('/' :: b) sb (Or.inr ⟨b, rfl⟩) (Nat.lt_succ_self _)

theorem decodeSpaces_slash (b : List Char) :
    decodeSpaces ('/' :: b) = '/' :: decodeSpaces b :=
  decodeSpaces_cons _ _ (by simp [startsWith, pct20])

theorem strrchr_below_ne_none (root r b : List Char) (hroot : root = '/' :: r) :
    strrchr (root ++ b) '/' ≠ none := by
  intro h
  have := strrchr_spec (root ++ b) '/'
  rw [h] at this
  simp [hroot] at this

/-- The path of the walk for a directory under an absolute root is the root
followed by a part that begins with `/`. -/
theorem walkTarget_below (root b : List Char) (names : List (List Char)) :
    ∃ c, walkTarget (root ++ '/' :: b) names = root ++ '/' :: c := by
  unfold walkTarget
  split
  · exact ⟨b ++ DEFAULT_FILE, by simp⟩
  · exact ⟨b, rfl⟩

/-- On a target that exists and is not a directory, `parsePath` has no
result: `strncat` stores the `dir_path_length` characters up to the last `/`
of `absPath` and a terminator in `char dir_path[dir_path_length]`. -/
theorem parsePath_file_overrun (w : World) (root path : List Char) (st : Stat)
    (hcwd : w.getcwd = some root) (hcalloc : w.calloc_ok = true)
    (hst : w.stat (root ++ decodeSpaces path) = some st)
    (hnd : S_ISDIR st.st_mode = false) :
    parsePath w path initResponseInfo = none := by
  unfold parsePath
  rw [replaceSubstring_eq, hcwd]
  simp only [hcalloc, hst, hnd, initResponseInfo, Bool.not_true, Bool.false_eq_true, if_false,
    ne_eq, not_true_eq_false]
  cases hs : strrchr (root ++ decodeSpaces path) '/' with
  | none => rfl
  | some s =>
    have hlt := strrchr_lt _ _ _ hs
    simp only
    rw [if_pos]
    rw [List.length_take, List.length_drop]
    omega

/-- The result of `parsePath` on a directory whose path ends with `/` and
whose entries can be read, from the result of the permission walk. -/
theorem parsePath_directory (w : World) (root path : List Char) (names : List (List Char))
    (st : Stat) (flag : Int) (hcwd : w.getcwd = some root) (hcalloc : w.calloc_ok = true)
    (hst : w.stat (root ++ decodeSpaces path) = some st) (hdir : S_ISDIR st.st_mode = true)
    (hlast : (decodeSpaces path).getLast? = some '/')
    (hscan : w.scandir (root ++ decodeSpaces path) = some names)
    (hflag : hasPermissions w.stat w.statbuf (walkTarget (root ++ decodeSpaces path) names) root
      = some flag) :
    parsePath w path initResponseInfo
      = some (if flag ≠ 0 then CODE_FORBIDDEN else 0, decodeSpaces path,
          { isPathDir := 1,
            foundFile := if flag ≠ 0 then 0
              else if names.any (fun d_name => d_name == DEFAULT_FILE) then 1 else 0,
            numOfFiles := names.length, fileList := some names,
            absPath := some (walkTarget (root ++ decodeSpaces path) names),
            root := some root }) := by
  have habs : (root ++ decodeSpaces path).getLast? = some '/' := by
    rw [List.getLast?_append, hlast]; rfl
  unfold walkTarget at hflag ⊢
  unfold parsePath
  rw [replaceSubstring_eq, hcwd]
  simp only [hcalloc, hst, hdir, habs, hscan, initResponseInfo, Bool.not_true,
    Bool.false_eq_true, if_false, if_true, ne_eq, one_ne_zero, not_false_eq_true,
    not_true_eq_false]
  by_cases hany : names.any (fun d_name => d_name == DEFAULT_FILE) = true
  · simp only [hany, if_true] at hflag ⊢
    rw [hflag]
    by_cases hf : flag = 0 <;> simp [hf]
  · simp only [hany, if_false, Bool.false_eq_true] at hflag ⊢
    rw [hflag]
    by_cases hf : flag = 0 <;> simp [hf]

/-- Under an absolute working directory and on a path that begins with `/`,
the function `parsePath` returns when the target does not exist or is a
directory. -/
theorem parsePath_returns (w : World) (root r path b : List Char) (hcwd : w.getcwd = some root)
    (hroot : root = '/' :: r) (hpath : path = '/' :: b)
    (hnf : ∀ st, w.stat (root ++ decodeSpaces path) = some st → S_ISDIR st.st_mode = true) :
    (parsePath w path initResponseInfo).isSome = true := by
  by_cases hcalloc : w.calloc_ok = true
  · cases hst : w.stat (root ++ decodeSpaces path) with
    | none =>
      unfold parsePath
      rw [replaceSubstring_eq, hcwd]
      simp [hcalloc, hst]
    | some st =>
      have hdir := hnf st hst
      cases hl : (decodeSpaces path).getLast? with
      | none =>
        rw [hpath, decodeSpaces_slash] at hl
        simp at hl
      | some last =>
        have habs : (root ++ decodeSpaces path).getLast? = some last := by
          rw [List.getLast?_append, hl]; rfl
        by_cases hlast : last = '/'
        · subst hlast
          cases hscan : w.scandir (root ++ decodeSpaces path) with
          | none =>
            unfold parsePath
            rw [replaceSubstring_eq, hcwd]
            simp [hcalloc, hst, hdir, habs, hscan, initResponseInfo]
          | some names =>
            obtain ⟨c, hc⟩ := walkTarget_below root (decodeSpaces b) names
            obtain ⟨_, flag, hf, _⟩ := hasPermissions_spec w.stat w.statbuf root r c hroot
            rw [← hc, ← decodeSpaces_slash, ← hpath] at hf
            rw [parsePath_directory w root path names st flag hcwd hcalloc hst hdir hl hscan hf]
            rfl
        · unfold parsePath
          rw [replaceSubstring_eq, hcwd]
          simp [hcalloc, hst, hdir, habs, hlast, initResponseInfo]
  · unfold parsePath
    rw [replaceSubstring_eq, hcwd]
    simp [hcalloc]

theorem S_ISDIR_of_S_ISREG (mode : Nat) (h : S_ISREG mode = true) : S_ISDIR mode = false := by
  unfold S_ISREG at h
  unfold S_ISDIR
  have h2 : mode &&& S_IFMT = S_IFREG := by simpa using h
  rw [h2]
  decide

/-! ## The claims -/

/-- Claim C1, refuted as stated: the request path `/../etc/` resolves to the
directory `/srv/etc/`, outside the root `/srv/www`, and `parsePath` returns 0
with the entries of that directory. -/
theorem parsePath_serves_outside_root :
    openWorld.getcwd = some "/srv/www".toList ∧
    underRoot "/srv/www".toList ("/srv/www".toList ++ "/../etc/".toList) = false ∧
    parsePath openWorld "/../etc/".toList initResponseInfo
      = some (0, "/../etc/".toList,
          { isPathDir := 1, foundFile := 0, numOfFiles := 3,
            fileList := some [".".toList, "..".toList, "passwd".toList],
            absPath := some "/srv/www/../etc/".toList, root := some "/srv/www".toList }) := by
  decide

/-- Claim C1, amended: `parsePath` does not compare the resolved target with
the root; its answer depends on the permission bits alone.  Under an absolute
working directory `root`, for every request path that begins with `/`, whether
or not it climbs above the root with `..`, and that, decoded, ends with `/`
and names a directory whose entries can be read: when every string of the
chain of cuts, from the path of the walk up to `root`, satisfies the
permission policy, `parsePath` returns 0; and when all these strings can be
stat-ed and one of them does not satisfy the policy, `parsePath` returns
Forbidden. -/
theorem parsePath_forbidden_by_permissions (w : World) (root r path b : List Char)
    (names : List (List Char)) (st : Stat)
    (hcwd : w.getcwd = some root) (hroot : root = '/' :: r) (hpath : path = '/' :: b)
    (hcalloc : w.calloc_ok = true)
    (hst : w.stat (root ++ decodeSpaces path) = some st) (hdir : S_ISDIR st.st_mode = true)
    (hlast : (decodeSpaces path).getLast? = some '/')
    (hscan : w.scandir (root ++ decodeSpaces path) = some names) :
    ((∀ p ∈ upTo root (cutChain (walkTarget (root ++ decodeSpaces path) names)),
        permitted w.stat p = true) →
      (parsePath w path initResponseInfo).map Prod.fst = some 0) ∧
    ((∀ p ∈ upTo root (cutChain (walkTarget (root ++ decodeSpaces path) names)),
        (w.stat p).isSome = true) →
      (∃ p ∈ upTo root (cutChain (walkTarget (root ++ decodeSpaces path) names)),
        permitted w.stat p = false) →
      (parsePath w path initResponseInfo).map Prod.fst = some CODE_FORBIDDEN) := by
  obtain ⟨c, hc⟩ := walkTarget_below root (decodeSpaces b) names
  obtain ⟨_, flag, hf, hflag, hB, hA⟩ := hasPermissions_spec w.stat w.statbuf root r c hroot
  rw [← hc, ← decodeSpaces_slash, ← hpath] at hf hB hA
  have hres := parsePath_directory w root path names st flag hcwd hcalloc hst hdir hlast hscan hf
  constructor
  · intro hall
    have h0 := hB hall
    rw [hres, h0]
    rfl
  · intro hex ⟨p, hp, hnot⟩
    have hne : flag ≠ 0 := by
      intro h0
      have := hA h0 hex p hp
      rw [hnot] at this
      cases this
    rw [hres, if_pos hne]
    rfl

/-- Claim C1, amended, at two directories outside the root: `/../etc/`, which
others may enter, and `/../private/`, which they may not. -/
theorem parsePath_forbidden_by_permissions_witness :
    underRoot "/srv/www".toList ("/srv/www".toList ++ "/../private/".toList) = false ∧
    (parsePath openWorld "/../etc/".toList initResponseInfo).map Prod.fst = some 0 ∧
    (parsePath openWorld "/../private/".toList initResponseInfo).map Prod.fst
      = some CODE_FORBIDDEN :=
  ⟨by decide,
    (parsePath_forbidden_by_permissions openWorld "/srv/www".toList "srv/www".toList
      "/../etc/".toList "../etc/".toList [".".toList, "..".toList, "passwd".toList] dir755
      rfl rfl rfl rfl (by decide) (by decide) (by decide) (by decide)).1 (by decide),
    (parsePath_forbidden_by_permissions openWorld "/srv/www".toList "srv/www".toList
      "/../private/".toList "../private/".toList [".".toList, "..".toList] dir750
      rfl rfl rfl rfl (by decide) (by decide) (by decide) (by decide)).2 (by decide)
      ⟨"/srv/www/../private/".toList, by decide, by decide⟩⟩

/-- Claim C2, refuted as stated.  First, `parseRequest` accepts the request
line `GET x/ HTTP/1.0` and on its path `x/` the function `parsePath` returns
0 with `absPath = /srv/wwwx/`, whose chain of cuts does not contain the root
`/srv/www`.  Second, where the directory lists an `index.html` that cannot be
stat-ed, `parsePath` returns 0 on `/` although `absPath` does not satisfy the
policy: the walk has read the stale `statbuf`. -/
theorem parsePath_success_without_invariant :
    (parseRequest "GET x/ HTTP/1.0\r\n\r\n".toList = some (0, "x/".toList) ∧
      parsePath openWorld "x/".toList initResponseInfo
        = some (0, "x/".toList,
          { isPathDir := 1, foundFile := 0, numOfFiles := 2,
            fileList := some [".".toList, "..".toList],
            absPath := some "/srv/wwwx/".toList, root := some "/srv/www".toList }) ∧
      "/srv/www".toList ∉ cutChain "/srv/wwwx/".toList) ∧
    (parsePath staleWorld "/".toList initResponseInfo
        = some (0, "/".toList,
          { isPathDir := 1, foundFile := 1, numOfFiles := 3,
            fileList := some [".".toList, "..".toList, "index.html".toList],
            absPath := some "/srv/www/index.html".toList, root := some "/srv/www".toList }) ∧
      permitted staleWorld.stat "/srv/www/index.html".toList = false) := by
  decide

/-- Claim C2, amended: under an absolute working directory `root` and for a
request path that begins with `/`, `parsePath` returns when the target does
not exist or is a directory, and whenever it returns 0 the chain of cuts of
`absPath` contains `root` and, provided every string of the chain from
`absPath` up to `root` can be stat-ed, every one of them satisfies the
permission policy. -/
theorem parsePath_success_invariant (w : World) (root r path b : List Char)
    (hcwd : w.getcwd = some root) (hroot : root = '/' :: r) (hpath : path = '/' :: b) :
    ((∀ st, w.stat (root ++ decodeSpaces path) = some st → S_ISDIR st.st_mode = true) →
      ∃ code path2 ri, parsePath w path initResponseInfo = some (code, path2, ri)) ∧
    (∀ path2 ri, parsePath w path initResponseInfo = some (0, path2, ri) →
      ∃ absPath, ri.absPath = some absPath ∧ root ∈ cutChain absPath ∧
        ((∀ p ∈ upTo root (cutChain absPath), (w.stat p).isSome = true) →
          ∀ p ∈ upTo root (cutChain absPath), permitted w.stat p = true)) := by
  constructor
  · intro hnf
    obtain ⟨⟨code, path2, ri⟩, h⟩ :=
      Option.isSome_iff_exists.1 (parsePath_returns w root r path b hcwd hroot hpath hnf)
    exact ⟨code, path2, ri, h⟩
  · intro path2 ri h
    obtain ⟨_, _, hZ⟩ := parsePath_inv w path path2 0 ri h
    obtain ⟨root2, absPath, hcwd2, habs, hshape, hflag⟩ := hZ rfl
    rw [hcwd] at hcwd2
    cases hcwd2
    refine ⟨absPath, habs, ?_⟩
    rw [hpath, decodeSpaces_slash] at hshape
    have key : ∀ c, absPath = root ++ '/' :: c →
        root ∈ cutChain absPath ∧
        ((∀ p ∈ upTo root (cutChain absPath), (w.stat p).isSome = true) →
          ∀ p ∈ upTo root (cutChain absPath), permitted w.stat p = true) := by
      intro c hc
      subst hc
      obtain ⟨hmem, flag2, hf, _, _, hA⟩ := hasPermissions_spec w.stat w.statbuf root r c hroot
      rw [hf] at hflag
      cases hflag
      exact ⟨hmem, hA rfl⟩
    rcases hshape with hs | hs
    · exact key _ hs
    · exact key (decodeSpaces b ++ DEFAULT_FILE) (by simpa using hs)

/-- Claim C2, amended, at the directory `/docs/` of the site. -/
theorem parsePath_success_invariant_witness :
    parsePath siteWorld "/docs/".toList initResponseInfo
      = some (0, "/docs/".toList,
          { isPathDir := 1, foundFile := 0, numOfFiles := 3,
            fileList := some [".".toList, "..".toList, "a.txt".toList],
            absPath := some "/srv/www/docs/".toList, root := some "/srv/www".toList }) ∧
    ∃ absPath, some "/srv/www/docs/".toList = some absPath ∧
      "/srv/www".toList ∈ cutChain absPath ∧
      ((∀ p ∈ upTo "/srv/www".toList (cutChain absPath), (siteWorld.stat p).isSome = true) →
        ∀ p ∈ upTo "/srv/www".toList (cutChain absPath), permitted siteWorld.stat p = true) :=
  ⟨by decide,
    (parsePath_success_invariant siteWorld "/srv/www".toList "srv/www".toList
      "/docs/".toList "docs/".toList rfl rfl rfl).2 "/docs/".toList
      { isPathDir := 1, foundFile := 0, numOfFiles := 3,
        fileList := some [".".toList, "..".toList, "a.txt".toList],
        absPath := some "/srv/www/docs/".toList, root := some "/srv/www".toList } (by decide)⟩

/-- Claim C3, refuted as stated.  With the relative root `r` the walk on
`r/a` stats `/a` instead of `r/a` and returns -1 although `r/a` and `r`
satisfy the policy.  With the root `/r` and a path `/r/a` that cannot be
stat-ed the walk reads the uninitialised `statbuf` and returns 0 although
`/r/a` does not satisfy the policy. -/
theorem hasPermissions_not_the_policy :
    (hasPermissions (statOf [("r/a", file644), ("r", dir755), ("/a", file640)]) file640
        ("r".toList ++ "/a".toList) "r".toList = some (-1) ∧
      upTo "r".toList (cutChain ("r".toList ++ "/a".toList)) = ["r/a".toList, "r".toList] ∧
      (∀ p ∈ upTo "r".toList (cutChain ("r".toList ++ "/a".toList)),
        permitted (statOf [("r/a", file644), ("r", dir755), ("/a", file640)]) p = true)) ∧
    (hasPermissions (statOf [("/r", dir755)]) file644 ("/r".toList ++ "/a".toList) "/r".toList
        = some 0 ∧
      permitted (statOf [("/r", dir755)]) ("/r".toList ++ "/a".toList) = false) := by
  decide

/-- Claim C3, amended: for every root that begins with `/` and every path made
of the root and a suffix that begins with `/`, if every string obtained from
the path by cutting at the last `/`, from the path itself up to and including
the root, can be stat-ed, then `hasPermissions(path, root)` returns 0 if and
only if every one of these strings is other-readable and, when it is a
directory, also other-executable; otherwise it returns -1. -/
theorem hasPermissions_iff_chain (stat : List Char → Option Stat) (statbuf : Stat)
    (root r suffix b : List Char) (hroot : root = '/' :: r) (hsuffix : suffix = '/' :: b)
    (hex : ∀ p ∈ upTo root (cutChain (root ++ suffix)), (stat p).isSome = true) :
    (hasPermissions stat statbuf (root ++ suffix) root = some 0 ↔
      ∀ p ∈ upTo root (cutChain (root ++ suffix)), permitted stat p = true) ∧
    (hasPermissions stat statbuf (root ++ suffix) root = some 0 ∨
      hasPermissions stat statbuf (root ++ suffix) root = some (-1)) := by
  subst hsuffix
  obtain ⟨_, flag, hf, hflag, hB, hA⟩ := hasPermissions_spec stat statbuf root r b hroot
  rw [hf]
  constructor
  · constructor
    · intro h
      have h0 : flag = 0 := by simpa using h
      exact hA h0 hex
    · intro h
      rw [hB h]
  · rcases hflag with rfl | rfl
    · exact Or.inl rfl
    · exact Or.inr rfl

/-- Claim C3, amended, on the path `/srv/www/page.html` of the example. -/
theorem hasPermissions_iff_chain_witness :
    (∀ p ∈ upTo "/srv/www".toList (cutChain ("/srv/www".toList ++ "/page.html".toList)),
      (statOf exampleFiles p).isSome = true) ∧
    (hasPermissions (statOf exampleFiles) file640 ("/srv/www".toList ++ "/page.html".toList)
        "/srv/www".toList = some 0 ↔
      ∀ p ∈ upTo "/srv/www".toList (cutChain ("/srv/www".toList ++ "/page.html".toList)),
        permitted (statOf exampleFiles) p = true) :=
  ⟨by decide, (hasPermissions_iff_chain (statOf exampleFiles) file640 "/srv/www".toList
    "srv/www".toList "/page.html".toList "page.html".toList rfl rfl (by decide)).1⟩

/-- Claim C5, refuted as stated: on the request `PUT` without path and
protocol `parseRequest` returns Bad, not NotSupported. -/
theorem parseRequest_PUT_alone :
    parseRequest "PUT\r\n\r\n".toList = some (CODE_BAD, []) := by
  decide

/-- Claim C5, amended: for every request whose line holds at least three
tokens, of which the first, the method, has at most three characters and is
not exactly `GET`, `parseRequest` returns NotSupported, whatever the tokens
after the method contain. -/
theorem parseRequest_not_supported (request m p q : List Char)
    (h : ThreeTokens (firstLine request) m p q) (hlen : m.length ≤ 3)
    (hm : m ≠ "GET".toList) :
    (parseRequest request).map Prod.fst = some CODE_NOT_SUPPORTED := by
  rw [parseRequest_three request m p q h hlen, if_pos hm]
  rfl

/-- Claim C5, amended, on the request `PUT /file.html HTTP/1.0`. -/
theorem parseRequest_not_supported_witness :
    (parseRequest "PUT /file.html HTTP/1.0\r\n\r\n".toList).map Prod.fst
      = some CODE_NOT_SUPPORTED :=
  parseRequest_not_supported "PUT /file.html HTTP/1.0\r\n\r\n".toList "PUT".toList
    "/file.html".toList "HTTP/1.0".toList
    ⟨[], [' '], [' '], [], by decide, by decide, by decide, by decide, by decide, by decide,
      by decide, by decide, by decide, Or.inl rfl⟩ (by decide) (by decide)

/-- Claim C6, refuted as stated: lines of four and of five tokens are
accepted. -/
theorem parseRequest_token_count_not_checked :
    parseRequest "GET /a HTTP/1.0 extra\r\n\r\n".toList = some (0, "/a".toList) ∧
    parseRequest "GET /a HTTP/1.0 extra more\r\n\r\n".toList = some (0, "/a".toList) := by
  decide

/-- Claim C6, amended: `parseRequest` returns Bad for every request whose
line, up to its first carriage return, holds no token, or one or two tokens of
which the first has at most three characters; and what follows the third
token is not looked at: two requests whose lines begin with the same three
tokens, the first of at most three characters, get the same result. -/
theorem parseRequest_token_count (request : List Char) :
    ((NoToken (firstLine request) ∨ (∃ m, OneToken (firstLine request) m ∧ m.length ≤ 3) ∨
        (∃ m p, TwoTokens (firstLine request) m p ∧ m.length ≤ 3)) →
      (parseRequest request).map Prod.fst = some CODE_BAD) ∧
    (∀ request2 m p q, m.length ≤ 3 → ThreeTokens (firstLine request) m p q →
      ThreeTokens (firstLine request2) m p q → parseRequest request2 = parseRequest request) := by
  constructor
  · intro h
    obtain ⟨r, hs, h3⟩ := sscanfRequest_few _ h
    exact parseRequest_unassigned request r hs h3
  · intro request2 m p q hlen h1 h2
    rw [parseRequest_three request m p q h1 hlen, parseRequest_three request2 m p q h2 hlen]

/-- Claim C6, amended, on the request `GET /a`, and on `GET /a HTTP/1.0` with
and without a fourth token. -/
theorem parseRequest_token_count_witness :
    (parseRequest "GET /a\r\n\r\n".toList).map Prod.fst = some CODE_BAD ∧
    parseRequest "GET /a HTTP/1.0 extra\r\n\r\n".toList
      = parseRequest "GET /a HTTP/1.0\r\n\r\n".toList :=
  ⟨(parseRequest_token_count "GET /a\r\n\r\n".toList).1
      (Or.inr (Or.inr ⟨"GET".toList, "/a".toList,
        ⟨[], [' '], [], by decide, by decide, by decide, by decide, by decide, by decide,
          by decide⟩, by decide⟩)),
    (parseRequest_token_count "GET /a HTTP/1.0\r\n\r\n".toList).2
      "GET /a HTTP/1.0 extra\r\n\r\n".toList "GET".toList "/a".toList "HTTP/1.0".toList
      (by decide)
      ⟨[], [' '], [' '], [], by decide, by decide, by decide, by decide, by decide, by decide,
        by decide, by decide, by decide, Or.inl rfl⟩
      ⟨[], [' '], [' '], " extra".toList, by decide, by decide, by decide, by decide, by decide,
        by decide, by decide, by decide, by decide, Or.inr ⟨' ', "extra".toList, rfl, rfl⟩⟩⟩

/-- Claim C7, refuted as stated: the third token `HTTP/1.0X` is neither
`HTTP/1.0` nor `HTTP/1.1`, and the request is accepted. -/
theorem parseRequest_long_protocol :
    parseRequest "GET /a HTTP/1.0X\r\n\r\n".toList = some (0, "/a".toList) := by
  decide

/-- Claim C7, amended: for every request whose line holds the method `GET`, a
path and a third token, `parseRequest` returns Bad unless the first eight
characters of the third token are exactly `HTTP/1.0` or exactly `HTTP/1.1`,
and then it does not return Bad. -/
theorem parseRequest_protocol (request p q : List Char)
    (h : ThreeTokens (firstLine request) "GET".toList p q) :
    (q.take 8 ≠ "HTTP/1.0".toList ∧ q.take 8 ≠ "HTTP/1.1".toList →
      (parseRequest request).map Prod.fst = some CODE_BAD) ∧
    (q.take 8 = "HTTP/1.0".toList ∨ q.take 8 = "HTTP/1.1".toList →
      (parseRequest request).map Prod.fst ≠ some CODE_BAD) := by
  rw [parseRequest_three request _ p q h (by decide)]
  simp only [ne_eq, not_true_eq_false, if_false]
  constructor
  · intro hq
    rw [if_pos hq]
    rfl
  · intro hq
    have hn : ¬ (¬ q.take 8 = "HTTP/1.0".toList ∧ ¬ q.take 8 = "HTTP/1.1".toList) := by
      rintro ⟨h1, h2⟩
      rcases hq with hq | hq
      · exact h1 hq
      · exact h2 hq
    rw [if_neg hn]
    split
    · split
      · simp
      · simp [CODE_BAD]
    · simp [CODE_BAD]

/-- Claim C7, amended, on the protocol token `HTTP/2.0`. -/
theorem parseRequest_protocol_witness :
    (parseRequest "GET /a HTTP/2.0\r\n\r\n".toList).map Prod.fst = some CODE_BAD :=
  (parseRequest_protocol "GET /a HTTP/2.0\r\n\r\n".toList "/a".toList "HTTP/2.0".toList
    ⟨[], [' '], [' '], [], by decide, by decide, by decide, by decide, by decide, by decide,
      by decide, by decide, by decide, Or.inl rfl⟩).1 (by decide)

/-- Claim C8, refuted as stated: of the token `https://host/a` the host is
not removed, and the token `httpdocs/index.html`, which does not begin with an
absolute-URL prefix, is changed. -/
theorem parseRequest_path_not_as_claimed :
    parseRequest "GET https://host/a HTTP/1.0\r\n\r\n".toList = some (0, "/host/a".toList) ∧
    parseRequest "GET httpdocs/index.html HTTP/1.0\r\n\r\n".toList
      = some (0, "/index.html".toList) := by
  decide

/-- Claim C8, amended: for every request whose line holds the method `GET`, a
path token and a protocol token that begins with `HTTP/1.0` or `HTTP/1.1`: a
path token that does not begin with the four characters `http` is left
unchanged; of a path token that begins with `http` and has a `/` at offset 7
or later, `path` keeps exactly the part that begins at the first such `/`; so
for a token `http://`, host with optional port, `/` and the rest, `path` keeps
the part that begins at the first `/` after the host. -/
theorem parseRequest_absolute_url (request p q : List Char)
    (h : ThreeTokens (firstLine request) "GET".toList p q)
    (hq : q.take 8 = "HTTP/1.0".toList ∨ q.take 8 = "HTTP/1.1".toList) :
    (startsWith p "http".toList = false → parseRequest request = some (0, p)) ∧
    (∀ a b, startsWith p "http".toList = true → p.drop 7 = a ++ '/' :: b → '/' ∉ a →
      parseRequest request = some (0, '/' :: b)) ∧
    (∀ host rest, p = "http://".toList ++ (host ++ '/' :: rest) → '/' ∉ host →
      parseRequest request = some (0, '/' :: rest)) := by
  have hn : ¬ (¬ q.take 8 = "HTTP/1.0".toList ∧ ¬ q.take 8 = "HTTP/1.1".toList) := by
    rintro ⟨h1, h2⟩
    rcases hq with hq | hq
    · exact h1 hq
    · exact h2 hq
  have key : ∀ a b, startsWith p "http".toList = true → p.drop 7 = a ++ '/' :: b → '/' ∉ a →
      parseRequest request = some (0, '/' :: b) := by
    intro a b hs hd ha
    rw [parseRequest_three request _ p q h (by decide)]
    simp only [ne_eq, not_true_eq_false, if_false]
    rw [if_neg hn, if_pos hs, hd, strchr_append a b '/' ha]
    simp
  refine ⟨?_, key, ?_⟩
  · intro hs
    rw [parseRequest_three request _ p q h (by decide)]
    simp only [ne_eq, not_true_eq_false, if_false]
    rw [if_neg hn, if_neg (by rw [hs]; simp)]
  · intro host rest hp hhost
    apply key host rest
    · rw [startsWith_iff]
      exact ⟨"://".toList ++ (host ++ '/' :: rest), by rw [hp]; rfl⟩
    · rw [hp]
      rfl
    · exact hhost

/-- Claim C8, amended, on the path token `http://host:80/a/b`. -/
theorem parseRequest_absolute_url_witness :
    parseRequest "GET http://host:80/a/b HTTP/1.1\r\n\r\n".toList = some (0, "/a/b".toList) :=
  (parseRequest_absolute_url "GET http://host:80/a/b HTTP/1.1\r\n\r\n".toList
    "http://host:80/a/b".toList "HTTP/1.1".toList
    ⟨[], [' '], [' '], [], by decide, by decide, by decide, by decide, by decide, by decide,
      by decide, by decide, by decide, Or.inl rfl⟩ (Or.inr (by decide))).2.2
    "host:80".toList "a/b".toList (by decide) (by decide)

/-- Claim C9: for every path, `replaceSubstring(path, "%20", " ")` returns,
and leaves the path with every `%20`, scanning left to right, replaced by one
space and every other character unchanged; the result contains no `%20` and
is shorter than the input by twice the number of occurrences replaced. -/
theorem replaceSubstring_decodes (path : List Char) :
    replaceSubstring path "%20".toList " ".toList = some (0, decodeSpaces path) ∧
    ¬ Contains (decodeSpaces path) "%20".toList ∧
    (decodeSpaces path).length + 2 * countEscapes path = path.length := by
  refine ⟨replaceSubstring_eq path, ?_, decodeSpaces_length path⟩
  exact replaceSubstringLoop_clean pct20 [' '] (path.length + 1) path (decodeSpaces path)
    (replaceSubstringLoop_pct20 _ _ (Nat.lt_succ_self _))

/-- Claim C10: for every file name `get_mime_type` returns the type that the
table of the spec assigns to the characters after the last `.` of the name,
compared case-sensitively, and no type when the name has no `.` or the
extension is not in the table; `.HTML` and a name without `.` give none. -/
theorem get_mime_type_table (name : List Char) :
    get_mime_type name = classify name ∧
    get_mime_type "INDEX.HTML".toList = none ∧
    get_mime_type "README".toList = none ∧
    get_mime_type "archive.tar.html".toList = some "text/html".toList :=
  ⟨get_mime_type_eq_classify name, by decide, by decide, by decide⟩

/-! ## Lemmas on `constructResponse` -/

theorem get_mime_type_default : get_mime_type DEFAULT_FILE = some "text/html".toList := by
  decide

theorem statusLine_values :
    statusLine 200 = "HTTP/1.0 ".toList ++ CODE_OK_STRING ++ "\r\n".toList ∧
    statusLine 302 = "HTTP/1.0 ".toList ++ CODE_FOUND_STRING ++ "\r\n".toList ∧
    statusLine 400 = "HTTP/1.0 ".toList ++ CODE_BAD_STRING ++ "\r\n".toList ∧
    statusLine 403 = "HTTP/1.0 ".toList ++ CODE_FORBIDDEN_STRING ++ "\r\n".toList ∧
    statusLine 404 = "HTTP/1.0 ".toList ++ CODE_NOT_FOUND_STRING ++ "\r\n".toList ∧
    statusLine 500 = "HTTP/1.0 ".toList ++ CODE_INTERNAL_ERROR_STRING ++ "\r\n".toList ∧
    statusLine 501 = "HTTP/1.0 ".toList ++ CODE_NOT_SUPPORTED_STRING ++ "\r\n".toList := by
  decide

theorem constructResponse_other (rt : Runtime) (w : World) (type : Int)
    (path : Option (List Char)) (ri : response_info_t) (resp : List Char)
    (hmem : type ∈ [302, 400, 403, 404, 500, 501])
    (h : constructResponse rt w type path ri = some (some resp)) :
    ∃ body, getResponseBody rt type = some body ∧
      resp = wireFormat type (rt.strftime rt.now)
        (if type = 302 then path.map (fun p => p ++ "/".toList) else none)
        (some "text/html".toList) body.length none body ∧
      (type = 302 → path.isSome = true) := by
  simp only [List.mem_cons, List.mem_singleton, List.not_mem_nil, or_false] at hmem
  obtain ⟨s200, s302, s400, s403, s404, s500, s501⟩ := statusLine_values
  unfold constructResponse at h
  rw [get_mime_type_default] at h
  rcases hmem with rfl | rfl | rfl | rfl | rfl | rfl
  · cases path with
    | none => simp [CODE_FOUND] at h
    | some p =>
      cases hb : getResponseBody rt 302 with
      | none => simp [hb, CODE_FOUND, CODE_OK] at h
      | some body =>
        cases hc : rt.calloc_response with
        | false => simp [hb, hc, CODE_FOUND, CODE_OK] at h
        | true =>
          simp only [hb, hc, CODE_FOUND, CODE_OK, CODE_BAD, CODE_FORBIDDEN, CODE_NOT_FOUND,
            CODE_INTERNAL_ERROR, CODE_NOT_SUPPORTED] at h
          simp at h
          refine ⟨body, rfl, ?_, fun _ => rfl⟩
          rw [← h]
          simp [wireFormat, s302, headerLine, optionalHeader]
  all_goals
    cases hb : getResponseBody rt _ with
    | none => simp [hb, CODE_FOUND, CODE_OK, CODE_BAD, CODE_FORBIDDEN, CODE_NOT_FOUND,
            CODE_INTERNAL_ERROR, CODE_NOT_SUPPORTED] at h
    | some body =>
      cases hc : rt.calloc_response with
      | false => simp [hb, hc, CODE_FOUND, CODE_OK, CODE_BAD, CODE_FORBIDDEN, CODE_NOT_FOUND,
            CODE_INTERNAL_ERROR, CODE_NOT_SUPPORTED] at h
      | true =>
        simp only [hb, hc, CODE_FOUND, CODE_OK, CODE_BAD, CODE_FORBIDDEN, CODE_NOT_FOUND,
          CODE_INTERNAL_ERROR, CODE_NOT_SUPPORTED] at h
        simp at h
        refine ⟨body, rfl, ?_, fun h0 => absurd h0 (by decide)⟩
        rw [← h]
        simp [wireFormat, s400, s403, s404, s500, s501, headerLine, optionalHeader]

theorem constructResponse_ok (rt : Runtime) (w : World) (path : Option (List Char))
    (ri : response_info_t) (resp : List Char)
    (h : constructResponse rt w CODE_OK path ri = some (some resp)) :
    ∃ st mime, ri.absPath.bind w.stat = some st ∧
      ((ri.isPathDir ≠ 0 ∧ mime = some "text/html".toList) ∨
        (ri.isPathDir = 0 ∧ ∃ p i, path = some p ∧ strrchr p '/' = some i ∧
          mime = get_mime_type (p.drop i))) ∧
      ((ri.isPathDir = 0 ∨ ri.foundFile ≠ 0) →
        resp = wireFormat 200 (rt.strftime rt.now) none mime st.st_size
          (some (rt.strftime st.st_mtime)) []) ∧
      (¬ (ri.isPathDir = 0 ∨ ri.foundFile ≠ 0) →
        ∃ body, getDirContents rt w ri = some (some body) ∧
          resp = wireFormat 200 (rt.strftime rt.now) none mime body.length
            (some (rt.strftime st.st_mtime)) body) := by
  obtain ⟨s200, -⟩ := statusLine_values
  unfold constructResponse at h
  rw [get_mime_type_default] at h
  simp only [CODE_FOUND, CODE_OK, CODE_BAD, CODE_FORBIDDEN, CODE_NOT_FOUND,
    CODE_INTERNAL_ERROR, CODE_NOT_SUPPORTED] at h
  have key : ∀ mime : Option (List Char),
      (match ri.absPath.bind w.stat with
        | none => some none
        | some statBuff =>
          if ri.isPathDir = 0 ∨ ri.foundFile ≠ 0 then
            if rt.calloc_response = true then
              some (some ("HTTP/1.0 ".toList ++ CODE_OK_STRING ++ "\r\n".toList
                ++ "Server: webserver/1.0\r\n".toList
                ++ ("Date: ".toList ++ rt.strftime rt.now ++ "\r\n".toList) ++ []
                ++ (match mime with
                    | some m => "Content-Type: ".toList ++ m ++ "\r\n".toList
                    | none => [])
                ++ ("Content-Length: ".toList ++ decimal statBuff.st_size ++ "\r\n".toList)
                ++ ("Last-Modified: ".toList ++ rt.strftime statBuff.st_mtime ++ "\r\n".toList)
                ++ "Connection: close\r\n\r\n".toList))
            else some none
          else
            match getDirContents rt w ri with
            | none => none
            | some none => some none
            | some (some responseBody) =>
              if rt.calloc_response = true then
                some (some ("HTTP/1.0 ".toList ++ CODE_OK_STRING ++ "\r\n".toList
                  ++ "Server: webserver/1.0\r\n".toList
                  ++ ("Date: ".toList ++ rt.strftime rt.now ++ "\r\n".toList) ++ []
                  ++ (match mime with
                      | some m => "Content-Type: ".toList ++ m ++ "\r\n".toList
                      | none => [])
                  ++ ("Content-Length: ".toList ++ decimal responseBody.length
                    ++ "\r\n".toList)
                  ++ ("Last-Modified: ".toList ++ rt.strftime statBuff.st_mtime
                    ++ "\r\n".toList)
                  ++ "Connection: close\r\n\r\n".toList ++ responseBody))
              else some none) = some (some resp) →
      ∃ st, ri.absPath.bind w.stat = some st ∧
        ((ri.isPathDir = 0 ∨ ri.foundFile ≠ 0) →
          resp = wireFormat 200 (rt.strftime rt.now) none mime st.st_size
            (some (rt.strftime st.st_mtime)) []) ∧
        (¬ (ri.isPathDir = 0 ∨ ri.foundFile ≠ 0) →
          ∃ body, getDirContents rt w ri = some (some body) ∧
            resp = wireFormat 200 (rt.strftime rt.now) none mime body.length
              (some (rt.strftime st.st_mtime)) body) := by
    intro mime hm
    cases hst : ri.absPath.bind w.stat with
    | none => simp [hst] at hm
    | some st =>
      refine ⟨st, rfl, ?_, ?_⟩
      · intro hfile
        simp only [hst, hfile, if_true] at hm
        cases hc : rt.calloc_response with
        | false => simp [hc] at hm
        | true =>
          simp only [hc, if_true, Option.some.injEq] at hm
          rw [← hm]
          cases mime <;> simp [wireFormat, s200, headerLine, optionalHeader]
      · intro hdir
        simp only [hst, hdir, if_false] at hm
        cases hg : getDirContents rt w ri with
        | none => simp [hg] at hm
        | some o =>
          cases o with
          | none => simp [hg] at hm
          | some body =>
            refine ⟨body, rfl, ?_⟩
            simp only [hg] at hm
            cases hc : rt.calloc_response with
            | false => simp [hc] at hm
            | true =>
              simp only [hc, if_true, Option.some.injEq] at hm
              rw [← hm]
              cases mime <;> simp [wireFormat, s200, headerLine, optionalHeader]
  by_cases hd : ri.isPathDir = 0
  · simp only [hd, ne_eq, not_true_eq_false, false_or, if_false] at h
    cases path with
    | none => simp at h
    | some p =>
      cases hs : strrchr p '/' with
      | none => simp [hs] at h
      | some i =>
        simp only [hs] at h
        have hk := key (get_mime_type (p.drop i))
        simp only [hd, true_or, if_true] at hk
        obtain ⟨st, hst, h1, h2⟩ := hk (by simpa using h)
        exact ⟨st, _, hst, Or.inr ⟨hd, p, i, rfl, hs, rfl⟩, fun _ => h1 trivial,
          fun hn => absurd (Or.inl hd) hn⟩
  · have hd2 : ri.isPathDir ≠ 0 := hd
    simp only [hd2, ne_eq, not_false_eq_true, true_or, if_true] at h
    obtain ⟨st, hst, h1, h2⟩ := key (some "text/html".toList) (by simpa [hd] using h)
    exact ⟨st, _, hst, Or.inl ⟨hd2, rfl⟩, h1, h2⟩

/-! ## Lemmas on the responses -/

theorem decodeSpaces_ne_nil (p : List Char) (h : p ≠ []) : decodeSpaces p ≠ [] := by
  rcases p with _ | ⟨c, _ | ⟨d, _ | ⟨e, r⟩⟩⟩
  · exact absurd rfl h
  · simp [decodeSpaces]
  · simp [decodeSpaces]
  · simp only [decodeSpaces]
    split <;> simp

/-- Decoding does not make a path end with `/`. -/
theorem decodeSpaces_getLast (p : List Char) (h : (decodeSpaces p).getLast? = some '/') :
    p.getLast? = some '/' := by
  induction p using decodeSpaces.induct with
  | case1 => simp [decodeSpaces] at h
  | case2 c => simpa [decodeSpaces] using h
  | case3 c d => simpa [decodeSpaces] using h
  | case4 c d e rest hm ih =>
    simp only [decodeSpaces, hm, and_self, if_true] at h
    rw [List.getLast?_cons] at h
    cases hr : (decodeSpaces rest).getLast? with
    | none => simp [hr] at h
    | some x =>
      simp only [hr, Option.getD_some, Option.some.injEq] at h
      subst h
      have h2 := ih hr
      have hne : rest ≠ [] := by
        intro h0; subst h0; simp at h2
      obtain ⟨y, ys, rfl⟩ := List.exists_cons_of_ne_nil hne
      simpa using h2
  | case5 c d e rest hm ih =>
    simp only [decodeSpaces, hm, if_false] at h
    have hne := decodeSpaces_ne_nil (d :: e :: rest) (by simp)
    obtain ⟨y, ys, hy⟩ := List.exists_cons_of_ne_nil hne
    rw [hy, List.getLast?_cons_cons, ← hy] at h
    have := ih h
    simpa using this

/-- The result of `parsePath` on a directory whose path does not end with `/`. -/
theorem parsePath_found (w : World) (root path : List Char) (st : Stat)
    (hcwd : w.getcwd = some root) (hcalloc : w.calloc_ok = true)
    (hst : w.stat (root ++ decodeSpaces path) = some st) (hdir : S_ISDIR st.st_mode = true)
    (hne : path ≠ []) (hlast : path.getLast? ≠ some '/') :
    parsePath w path initResponseInfo = some (CODE_FOUND, decodeSpaces path,
      { initResponseInfo with
        isPathDir := 1, absPath := some (root ++ decodeSpaces path), root := some root }) := by
  have hl : (decodeSpaces path).getLast? ≠ some '/' := fun h => hlast (decodeSpaces_getLast _ h)
  obtain ⟨x, hx⟩ : ∃ x, (decodeSpaces path).getLast? = some x := by
    cases hg : (decodeSpaces path).getLast? with
    | none => exact absurd (List.getLast?_eq_none_iff.1 hg) (decodeSpaces_ne_nil _ hne)
    | some x => exact ⟨x, rfl⟩
  have hxne : x ≠ '/' := by
    intro h0; subst h0; exact hl hx
  have habs : (root ++ decodeSpaces path).getLast? = some x := by
    rw [List.getLast?_append, hx]; rfl
  unfold parsePath
  rw [replaceSubstring_eq, hcwd]
  simp [hcalloc, hst, hdir, habs, hxne, initResponseInfo]

theorem strchr_lt (s : List Char) (c : Char) (i : Nat) (h : strchr s c = some i) :
    i < s.length := by
  induction s generalizing i with
  | nil => simp [strchr] at h
  | cons x xs ih =>
    simp only [strchr] at h
    split at h
    · cases h; simp
    · cases hj : strchr xs c with
      | none => simp [hj] at h
      | some j =>
        simp only [hj, Option.map_some', Option.some.injEq] at h
        subst h
        have := ih j hj
        simp only [List.length_cons]
        omega

/-- The path that `parseRequest` leaves is not empty and ends like the path
token; it is the path token when that does not begin with `http`. -/
theorem parseRequest_path (request p q path : List Char)
    (h : ThreeTokens (firstLine request) "GET".toList p q)
    (hpath : parseRequest request = some (0, path)) :
    path ≠ [] ∧ path.getLast? = p.getLast? ∧
      (startsWith p "http".toList = false → path = p) := by
  have htok : p ≠ [] := by
    obtain ⟨_, _, _, _, _, _, _, _, _, hp, _⟩ := h
    exact hp.1
  rw [parseRequest_three request _ p q h (by decide)] at hpath
  simp only [ne_eq, not_true_eq_false, if_false] at hpath
  split at hpath
  · simp [CODE_BAD] at hpath
  · split at hpath
    · rename_i hs
      split at hpath
      · simp at hpath
      · rename_i i hi
        simp only [Option.some.injEq, Prod.mk.injEq, true_and] at hpath
        have hlt := strchr_lt _ _ _ hi
        rw [List.length_drop] at hlt
        subst hpath
        refine ⟨?_, ?_, ?_⟩
        · intro h0
          have := congrArg List.length h0
          simp only [List.length_drop, List.length_nil] at this
          omega
        · rw [List.drop_drop, List.getLast?_drop, if_neg (by omega)]
        · intro hf
          rw [hf] at hs
          cases hs
    · simp only [Option.some.injEq, Prod.mk.injEq, true_and] at hpath
      subst hpath
      exact ⟨htok, rfl, fun _ => rfl⟩

theorem strstr_none_of_not_contains (s p : List Char) (h : ¬ Contains s p) :
    strstr s p = none := by
  cases hs : strstr s p with
  | none => rfl
  | some i =>
    exfalso
    apply h
    have := strstr_some s p i hs
    exact ⟨s.take i, s.drop (i + p.length), by rw [List.append_assoc]; exact this⟩

/-- The classification of a name does not change when `/` is put in front. -/
theorem classify_slash (seg : List Char) : classify ('/' :: seg) = classify seg := by
  unfold classify extensionOf
  by_cases hm : '.' ∈ seg
  · have hm2 : '.' ∈ '/' :: seg := List.mem_cons_of_mem _ hm
    have hs := strrchr_spec seg '.'
    cases h : strrchr seg '.' with
    | none => rw [h] at hs; exact absurd hm hs
    | some i =>
      rw [h] at hs
      obtain ⟨a, b, hab, _, hb⟩ := hs
      have e1 : (('/' :: seg).reverse.takeWhile (fun c => c != '.')) = b.reverse := by
        rw [hab]
        simp only [List.reverse_cons, List.reverse_append, List.append_assoc,
          List.singleton_append]
        exact takeWhile_ne_append '.' b.reverse _ (by simpa using hb)
      have e2 : (seg.reverse.takeWhile (fun c => c != '.')) = b.reverse := by
        rw [hab]
        simp only [List.reverse_cons, List.reverse_append, List.append_assoc,
          List.singleton_append]
        exact takeWhile_ne_append '.' b.reverse _ (by simpa using hb)
      simp only [hm, hm2, if_true, e1, e2]
  · have hm2 : '.' ∉ '/' :: seg := by
      simp only [List.mem_cons, not_or]
      exact ⟨by decide, hm⟩
    simp [hm, hm2]

/-- The part of a path from its last `/` on is `/` and the file name. -/
theorem drop_strrchr_fileName (a p : List Char) (i : Nat) (h : strrchr p '/' = some i) :
    p.drop i = '/' :: fileName (a ++ p) := by
  have hs := strrchr_spec p '/'
  rw [h] at hs
  obtain ⟨x, y, hxy, hlen, hy⟩ := hs
  have hd : p.drop i = '/' :: y := by
    rw [hxy, ← hlen]; simp
  rw [hd]
  congr 1
  unfold fileName
  rw [hxy]
  simp only [List.reverse_cons, List.reverse_append, List.append_assoc, List.singleton_append,
    List.cons_append]
  rw [takeWhile_ne_append '/' y.reverse _ (by simpa using hy)]
  simp

theorem getDirContentsLoop_rows (rt : Runtime) (w : World) (path : List Char)
    (names : List (List Char)) (body : List Char)
    (h : ∀ n ∈ names, ∃ st, w.stat (path ++ n) = some st ∧
      (dirEntity rt n st).length < SIZE_DIR_ENTITY) :
    ∃ rows, RowsOf rt w path names rows ∧ rows.flatten.length ≤ (SIZE_DIR_ENTITY - 1) * names.length ∧
      getDirContentsLoop rt w path names body = some (some (body ++ rows.flatten)) := by
  induction names generalizing body with
  | nil => exact ⟨[], trivial, by simp, by simp [getDirContentsLoop]⟩
  | cons n ns ih =>
    obtain ⟨st, hst, hfit⟩ := h n (by simp)
    obtain ⟨rows, hrows, hlen, hloop⟩ :=
      ih (body ++ dirEntity rt n st) (fun m hm => h m (List.mem_cons_of_mem _ hm))
    refine ⟨dirEntity rt n st :: rows, ⟨⟨st, hst, rfl⟩, hrows⟩, ?_, ?_⟩
    · simp only [List.flatten_cons, List.length_append, List.length_cons, SIZE_DIR_ENTITY]
        at hlen hfit ⊢
      omega
    · simp only [getDirContentsLoop, hst]
      rw [if_neg (by omega), hloop]
      simp

/-- The listing of a directory whose entries can all be stat-ed and whose
entities all fit into their buffer: one row per entry of the list, in the
order of the list, between the head and the foot of the table, in the
template with the title `Index of` and the path. -/
theorem getDirContents_rows (rt : Runtime) (w : World) (ri : response_info_t)
    (path : List Char) (names : List (List Char))
    (hpath : ri.absPath = some path) (hlist : ri.fileList = some names)
    (hnum : ri.numOfFiles = names.length) (hcalloc : rt.calloc_body = true)
    (h : ∀ n ∈ names, ∃ st, w.stat (path ++ n) = some st ∧
      (dirEntity rt n st).length < SIZE_DIR_ENTITY) :
    ∃ rows, RowsOf rt w path names rows ∧
      getDirContents rt w ri = some (some (RESPONSE_BODY_TEMPLATE ("Index of ".toList ++ path)
        ("Index of ".toList ++ path) (tableHead ++ rows.flatten ++ tableFoot))) := by
  obtain ⟨rows, hrows, hlen, hloop⟩ := getDirContentsLoop_rows rt w path names tableHead h
  refine ⟨rows, hrows, ?_⟩
  unfold getDirContents
  simp only [hpath, hlist, hnum, Option.getD_some, Int.toNat_ofNat, List.take_length]
  have h1 : ¬ ((names.length : Int) < 0) := by omega
  have h2 : ¬ (names.length < names.length) := by omega
  rw [if_neg h1, if_neg h2]
  have hl : getDirContentsLoop rt w path names
      "<table CELLSPACING=8>\n<tr><th>Name</th><th>Last Modified</th><th>Size</th></tr>\n".toList
      = some (some (tableHead ++ rows.flatten)) := hloop
  rw [hl]
  simp only
  have hh : tableHead.length = 80 := by decide
  have hf : "</table>\n<HR>\n<ADDRESS>webserver/1.0</ADDRESS>\n".toList.length = 47 := by decide
  have h3 : ¬ (SIZE_DIR_ENTITY * (names.length + 1)
      ≤ (tableHead ++ rows.flatten
          ++ "</table>\n<HR>\n<ADDRESS>webserver/1.0</ADDRESS>\n".toList).length) := by
    rw [List.length_append, List.length_append, hh, hf]
    simp only [SIZE_DIR_ENTITY] at hlen ⊢
    omega
  rw [if_neg h3]
  simp [hcalloc, tableFoot]

/-- Decoding works on the two sides of a `/` separately. -/
theorem decodeSpaces_append_slash (a b : List Char) :
    decodeSpaces (a ++ '/' :: b) = decodeSpaces a ++ '/' :: decodeSpaces b := by
  induction a using decodeSpaces.induct with
  | case1 => simp [decodeSpaces, decodeSpaces_slash]
  | case2 c =>
    have h : startsWith (c :: '/' :: b) pct20 = false := by simp [startsWith, pct20]
    simp [decodeSpaces, decodeSpaces_cons _ _ h, decodeSpaces_slash]
  | case3 c d =>
    have h1 : startsWith (c :: d :: '/' :: b) pct20 = false := by simp [startsWith, pct20]
    have h2 : startsWith (d :: '/' :: b) pct20 = false := by simp [startsWith, pct20]
    simp [decodeSpaces, decodeSpaces_cons _ _ h1, decodeSpaces_cons _ _ h2, decodeSpaces_slash]
  | case4 c d e rest hm ih =>
    obtain ⟨rfl, rfl, rfl⟩ := hm
    simp only [List.cons_append, decodeSpaces_pct20, ih]
  | case5 c d e rest hm ih =>
    have h1 : startsWith (c :: d :: e :: (rest ++ '/' :: b)) pct20 = false := by
      simp only [startsWith, pct20, Bool.and_true, Bool.and_eq_false_imp, beq_iff_eq]
      intro h1 h2
      by_contra h3
      exact hm ⟨h1, h2, by simpa using h3⟩
    have h2 : startsWith (c :: d :: e :: rest) pct20 = false := by
      simp only [startsWith, pct20, Bool.and_true, Bool.and_eq_false_imp, beq_iff_eq]
      intro h1 h2
      by_contra h3
      exact hm ⟨h1, h2, by simpa using h3⟩
    simp only [List.cons_append] at ih ⊢
    rw [decodeSpaces_cons _ _ h1, ih, decodeSpaces_cons _ _ h2]
    rfl

/-! ## The claims C11 to C20 -/

set_option maxRecDepth 100000 in
/-- Claim C11, refuted as stated: the directory `my dir` of the site is
requested as `/my%20dir`; the response is Found and its `Location` is
`/my dir/`, not the path of the request with a `/`. -/
theorem location_is_decoded :
    parseRequest "GET /my%20dir HTTP/1.0\r\n\r\n".toList = some (0, "/my%20dir".toList) ∧
    parsePath siteWorld "/my%20dir".toList initResponseInfo
      = some (CODE_FOUND, "/my dir".toList,
          { initResponseInfo with
            isPathDir := 1, absPath := some "/srv/www/my dir".toList,
            root := some "/srv/www".toList }) ∧
    constructResponse exampleRuntime siteWorld CODE_FOUND (some "/my dir".toList)
        { initResponseInfo with
          isPathDir := 1, absPath := some "/srv/www/my dir".toList,
          root := some "/srv/www".toList }
      = some (some "HTTP/1.0 302 Found\r\nServer: webserver/1.0\r\nDate: Thu, 01 Jan 1970 00:00:00 GMT\r\nLocation: /my dir/\r\nContent-Type: text/html\r\nContent-Length: 125\r\nConnection: close\r\n\r\n<HTML>\n<HEAD>\n<TITLE>302 Found</TITLE>\n</HEAD>\n<BODY>\n<H4>302 Found</H4>\nDirectories must end with a slash.\n\n</BODY>\n</HTML>\n".toList) := by
  decide

/-- Claim C11, amended: for every request `GET <p> HTTP/1.0` that
`parseRequest` accepts, in which `<p>` does not end with `/` and the path that
`parseRequest` leaves, decoded, names a directory under the working directory,
`parsePath` returns Found and every response that `constructResponse` builds
for it is a 302 response whose `Location` is the decoded path followed by one
`/`.  The decoded path is `<p>` as the client sent it when `<p>` does not
begin with `http` and holds no `%20`. -/
theorem found_location (rt : Runtime) (w : World) (request p path root : List Char) (st : Stat)
    (hreq : ThreeTokens (firstLine request) "GET".toList p "HTTP/1.0".toList)
    (hpath : parseRequest request = some (0, path))
    (hcwd : w.getcwd = some root) (hcalloc : w.calloc_ok = true)
    (hst : w.stat (root ++ decodeSpaces path) = some st) (hdir : S_ISDIR st.st_mode = true)
    (hlast : p.getLast? ≠ some '/') :
    ∃ ri, parsePath w path initResponseInfo = some (CODE_FOUND, decodeSpaces path, ri) ∧
      (∀ resp, constructResponse rt w CODE_FOUND (some (decodeSpaces path)) ri
          = some (some resp) →
        ∃ body, resp = wireFormat 302 (rt.strftime rt.now)
          (some (decodeSpaces path ++ "/".toList)) (some "text/html".toList) body.length
          none body) ∧
      (startsWith p "http".toList = false → ¬ Contains p "%20".toList →
        decodeSpaces path = p) := by
  obtain ⟨hne, hl, hsame⟩ := parseRequest_path request p _ path hreq hpath
  refine ⟨_, parsePath_found w root path st hcwd hcalloc hst hdir hne (by rw [hl]; exact hlast),
    ?_, ?_⟩
  · intro resp hresp
    obtain ⟨body, _, hwire, _⟩ :=
      constructResponse_other rt w 302 _ _ resp (by decide) hresp
    exact ⟨body, by simpa using hwire⟩
  · intro hs hc
    rw [hsame hs]
    exact decodeSpaces_none p (strstr_none_of_not_contains p pct20 hc)

/-- Claim C11, amended, on the request for the directory `/sub` of the site. -/
theorem found_location_witness :
    ∃ ri, parsePath siteWorld "/sub".toList initResponseInfo
        = some (CODE_FOUND, decodeSpaces "/sub".toList, ri) ∧
      (∀ resp, constructResponse exampleRuntime siteWorld CODE_FOUND
          (some (decodeSpaces "/sub".toList)) ri = some (some resp) →
        ∃ body, resp = wireFormat 302 (exampleRuntime.strftime exampleRuntime.now)
          (some (decodeSpaces "/sub".toList ++ "/".toList)) (some "text/html".toList)
          body.length none body) ∧
      (startsWith "/sub".toList "http".toList = false → ¬ Contains "/sub".toList "%20".toList →
        decodeSpaces "/sub".toList = "/sub".toList) :=
  found_location exampleRuntime siteWorld "GET /sub HTTP/1.0\r\n\r\n".toList "/sub".toList
    "/sub".toList "/srv/www".toList dir755
    ⟨[], [' '], [' '], [], by decide, by decide, by decide, by decide, by decide, by decide,
      by decide, by decide, by decide, Or.inl rfl⟩
    (by decide) rfl rfl (by decide) (by decide) (by decide)

/-- Claim C12: when the working directory `root` is known and `absPath` is
allocated, for every request path for which `root` followed by the decoded
path cannot be stat-ed, `parsePath` returns NotFound and leaves `isPathDir`
and `foundFile` at 0, and `numOfFiles` and `fileList` as they were
initialised; the result does not depend on what `scandir` would answer. -/
theorem parsePath_not_found (w : World) (root path : List Char) (hcwd : w.getcwd = some root)
    (hcalloc : w.calloc_ok = true) (hstat : w.stat (root ++ decodeSpaces path) = none) :
    ∃ ri, parsePath w path initResponseInfo = some (CODE_NOT_FOUND, decodeSpaces path, ri) ∧
      ri.isPathDir = 0 ∧ ri.foundFile = 0 ∧ ri.numOfFiles = 0 ∧ ri.fileList = none ∧
      ∀ scandir, parsePath { w with scandir := scandir } path initResponseInfo
        = some (CODE_NOT_FOUND, decodeSpaces path, ri) := by
  refine ⟨{ initResponseInfo with absPath := some (root ++ decodeSpaces path),
                                  root := some root }, ?_, rfl, rfl, rfl, rfl, ?_⟩
  · unfold parsePath
    rw [replaceSubstring_eq, hcwd]
    simp [hcalloc, hstat]
  · intro scandir
    unfold parsePath
    rw [replaceSubstring_eq]
    simp [hcwd, hcalloc, hstat]

/-- Claim C12 on the path `/missing` of the example. -/
theorem parsePath_not_found_witness :
    ∃ ri, parsePath exampleWorld "/missing".toList initResponseInfo
        = some (CODE_NOT_FOUND, decodeSpaces "/missing".toList, ri) ∧
      ri.isPathDir = 0 ∧ ri.foundFile = 0 ∧ ri.numOfFiles = 0 ∧ ri.fileList = none ∧
      ∀ scandir, parsePath { exampleWorld with scandir := scandir } "/missing".toList
        initResponseInfo = some (CODE_NOT_FOUND, decodeSpaces "/missing".toList, ri) :=
  parsePath_not_found exampleWorld "/srv/www".toList "/missing".toList rfl rfl (by decide)

/-- Claim C13: for each of the seven status codes, every response that
`constructResponse` returns is the wire format of the spec: status line,
`Server`, `Date`, `Location` (for 302 only, the path followed by `/`),
`Content-Type` (what the classifier yields for the name of the file of the
path in the 200 response of a file, and for the default document in every
other response; no such header when it yields none), `Content-Length` (the
size of the file in the response of a file, the length of the body
otherwise), `Last-Modified` (for 200 only, the modification time of the
target), `Connection: close`, an empty line and the body, which is empty for
the response of a file, the listing for the 200 response of a directory, and
the page of the code otherwise. -/
theorem constructResponse_wire_format (rt : Runtime) (w : World) (type : Int)
    (path : Option (List Char)) (ri : response_info_t) (resp : List Char)
    (hmem : type ∈ statusCodes) (h : constructResponse rt w type path ri = some (some resp)) :
    ∃ location contentType contentLength lastModified body,
      resp = wireFormat type (rt.strftime rt.now) location contentType contentLength
        lastModified body ∧
      (location.isSome = true ↔ type = 302) ∧
      (type = 302 → ∃ p, path = some p ∧ location = some (p ++ "/".toList)) ∧
      (ri.isPathDir ≠ 0 ∨ type ≠ 200 → contentType = classify DEFAULT_FILE) ∧
      (ri.isPathDir = 0 ∧ type = 200 →
        ∃ p, path = some p ∧ contentType = classify (fileName p)) ∧
      (lastModified.isSome = true ↔ type = 200) ∧
      (type = 200 → ∃ st, ri.absPath.bind w.stat = some st ∧
        lastModified = some (rt.strftime st.st_mtime) ∧
        (ri.isPathDir = 0 ∨ ri.foundFile ≠ 0 → contentLength = st.st_size ∧ body = []) ∧
        (¬ (ri.isPathDir = 0 ∨ ri.foundFile ≠ 0) →
          contentLength = body.length ∧ getDirContents rt w ri = some (some body))) ∧
      (type ≠ 200 → contentLength = body.length ∧ getResponseBody rt type = some body) := by
  simp only [statusCodes, List.mem_cons, List.mem_singleton, List.not_mem_nil, or_false] at hmem
  have hdef : classify DEFAULT_FILE = some "text/html".toList := by
    rw [← get_mime_type_eq_classify]; exact get_mime_type_default
  by_cases h200 : type = 200
  · subst h200
    obtain ⟨st, mime, hst, hmime, hfile, hdir⟩ := constructResponse_ok rt w path ri resp h
    have hct1 : ri.isPathDir ≠ 0 ∨ (200 : Int) ≠ 200 → mime = classify DEFAULT_FILE := by
      intro hd
      rcases hmime with ⟨_, hm⟩ | ⟨h0, _⟩
      · rw [hm, hdef]
      · rcases hd with hd | hd
        · exact absurd h0 hd
        · exact absurd rfl hd
    have hct2 : ri.isPathDir = 0 ∧ (200 : Int) = 200 →
        ∃ p, path = some p ∧ mime = classify (fileName p) := by
      intro hd
      rcases hmime with ⟨h0, _⟩ | ⟨_, p, i, hp, hi, hm⟩
      · exact absurd hd.1 h0
      · refine ⟨p, hp, ?_⟩
        have hdrop := drop_strrchr_fileName [] p i hi
        rw [List.nil_append] at hdrop
        rw [hm, hdrop, get_mime_type_eq_classify, classify_slash]
    by_cases hf : ri.isPathDir = 0 ∨ ri.foundFile ≠ 0
    · exact ⟨none, mime, st.st_size, some (rt.strftime st.st_mtime), [], hfile hf, by simp,
        by simp, hct1, hct2, by simp,
        fun _ => ⟨st, hst, rfl, fun _ => ⟨rfl, rfl⟩, fun hn => absurd hf hn⟩,
        fun hn => absurd rfl hn⟩
    · obtain ⟨body, hbody, hresp⟩ := hdir hf
      exact ⟨none, mime, body.length, some (rt.strftime st.st_mtime), body, hresp, by simp,
        by simp, hct1, hct2, by simp,
        fun _ => ⟨st, hst, rfl, fun hf2 => absurd hf2 hf, fun _ => ⟨rfl, hbody⟩⟩,
        fun hn => absurd rfl hn⟩
  · have hmem2 : type ∈ [302, 400, 403, 404, 500, 501] := by
      simp only [List.mem_cons, List.mem_singleton, List.not_mem_nil, or_false]
      rcases hmem with h | h | h | h | h | h | h
      · exact absurd h h200
      all_goals simp [h]
    obtain ⟨body, hbody, hresp, hpath⟩ :=
      constructResponse_other rt w type path ri resp hmem2 h
    refine ⟨_, some "text/html".toList, body.length, none, body, hresp, ?_, ?_,
      fun _ => hdef.symm, fun hd => absurd hd.2 h200, by simp [h200],
      fun h0 => absurd h0 h200, fun _ => ⟨rfl, hbody⟩⟩
    · by_cases h302 : type = 302
      · have := hpath h302
        simp [h302, this]
      · simp [h302]
    · intro h302
      obtain ⟨p, hp⟩ := Option.isSome_iff_exists.1 (hpath h302)
      exact ⟨p, hp, by simp [h302, hp]⟩

set_option maxRecDepth 100000 in
/-- Claim C13 on the Found response for the path `/sub` of the site. -/
theorem constructResponse_wire_format_witness :
    ∃ location contentType contentLength lastModified body,
      ((constructResponse exampleRuntime siteWorld 302 (some "/sub".toList)
          initResponseInfo).getD none).getD []
        = wireFormat 302 (exampleRuntime.strftime exampleRuntime.now) location contentType
          contentLength lastModified body ∧
      (location.isSome = true ↔ (302 : Int) = 302) ∧
      ((302 : Int) = 302 → ∃ p, some "/sub".toList = some p ∧ location = some (p ++ "/".toList)) ∧
      (initResponseInfo.isPathDir ≠ 0 ∨ (302 : Int) ≠ 200 →
        contentType = classify DEFAULT_FILE) ∧
      (initResponseInfo.isPathDir = 0 ∧ (302 : Int) = 200 →
        ∃ p, some "/sub".toList = some p ∧ contentType = classify (fileName p)) ∧
      (lastModified.isSome = true ↔ (302 : Int) = 200) ∧
      ((302 : Int) = 200 → ∃ st, initResponseInfo.absPath.bind siteWorld.stat = some st ∧
        lastModified = some (exampleRuntime.strftime st.st_mtime) ∧
        (initResponseInfo.isPathDir = 0 ∨ initResponseInfo.foundFile ≠ 0 →
          contentLength = st.st_size ∧ body = []) ∧
        (¬ (initResponseInfo.isPathDir = 0 ∨ initResponseInfo.foundFile ≠ 0) →
          contentLength = body.length ∧
          getDirContents exampleRuntime siteWorld initResponseInfo = some (some body))) ∧
      ((302 : Int) ≠ 200 →
        contentLength = body.length ∧ getResponseBody exampleRuntime 302 = some body) :=
  constructResponse_wire_format exampleRuntime siteWorld 302 (some "/sub".toList)
    initResponseInfo _ (by decide) (by decide)

set_option maxRecDepth 100000 in
/-- Claim C14, at the failing input: `/file.html` of the site is a regular
file that passes the permission walk, and `parseRequest` accepts the request
`GET /file.html HTTP/1.0`.  In `parsePath` the last `/` of
`/srv/www/file.html` is at offset 8, `dir_path` has 9 bytes, and `strncat`
stores 9 characters and a terminator in it: `parsePath`, and with it the
handler, has no result, and no header block is built. -/
theorem parsePath_overruns_dir_path :
    parseRequest "GET /file.html HTTP/1.0\r\n\r\n".toList = some (0, "/file.html".toList) ∧
    siteWorld.stat "/srv/www/file.html".toList = some file644 ∧
    S_ISREG file644.st_mode = true ∧
    hasPermissions siteWorld.stat siteWorld.statbuf "/srv/www/file.html".toList
      "/srv/www".toList = some 0 ∧
    strrchr "/srv/www/file.html".toList '/' = some 8 ∧
    ("/srv/www/file.html".toList.take 9).length + 1 = 10 ∧
    parsePath siteWorld "/file.html".toList initResponseInfo = none ∧
    handler exampleRuntime exampleRuntime siteWorld true
      (inTwos "GET /file.html HTTP/1.0\r\n\r\n".toList) [236, 9] = none := by
  decide

/-- Claim C16: for each of the codes 302, 400, 403, 404, 500 and 501,
`getResponseBody` returns, when its buffer is allocated, the template with
the status string of the code in `TITLE` and in `H4` and the message of the
code as text; the body for 404 contains `File not found.`. -/
theorem getResponseBody_pages (rt : Runtime) :
    getResponseBody rt 302 = (if rt.calloc_body then some
      "<HTML>\n<HEAD>\n<TITLE>302 Found</TITLE>\n</HEAD>\n<BODY>\n<H4>302 Found</H4>\nDirectories must end with a slash.\n\n</BODY>\n</HTML>\n".toList
      else none) ∧
    getResponseBody rt 400 = (if rt.calloc_body then some
      "<HTML>\n<HEAD>\n<TITLE>400 Bad Request</TITLE>\n</HEAD>\n<BODY>\n<H4>400 Bad Request</H4>\nBad Request.\n\n</BODY>\n</HTML>\n".toList
      else none) ∧
    getResponseBody rt 403 = (if rt.calloc_body then some
      "<HTML>\n<HEAD>\n<TITLE>403 Forbidden</TITLE>\n</HEAD>\n<BODY>\n<H4>403 Forbidden</H4>\nAccess denied.\n\n</BODY>\n</HTML>\n".toList
      else none) ∧
    getResponseBody rt 404 = (if rt.calloc_body then some
      "<HTML>\n<HEAD>\n<TITLE>404 Not Found</TITLE>\n</HEAD>\n<BODY>\n<H4>404 Not Found</H4>\nFile not found.\n\n</BODY>\n</HTML>\n".toList
      else none) ∧
    getResponseBody rt 500 = (if rt.calloc_body then some
      "<HTML>\n<HEAD>\n<TITLE>500 Internal Server Error</TITLE>\n</HEAD>\n<BODY>\n<H4>500 Internal Server Error</H4>\nSome server side error.\n\n</BODY>\n</HTML>\n".toList
      else none) ∧
    getResponseBody rt 501 = (if rt.calloc_body then some
      "<HTML>\n<HEAD>\n<TITLE>501 Not Supported</TITLE>\n</HEAD>\n<BODY>\n<H4>501 Not Supported</H4>\nMethod is not supported.\n\n</BODY>\n</HTML>\n".toList
      else none) ∧
    Contains
      "<HTML>\n<HEAD>\n<TITLE>404 Not Found</TITLE>\n</HEAD>\n<BODY>\n<H4>404 Not Found</H4>\nFile not found.\n\n</BODY>\n</HTML>\n".toList
      "File not found.".toList := by
  have key : ∀ (type : Int) (expected : List Char),
      getResponseBody { rt with calloc_body := true } type = some expected →
      getResponseBody rt type = if rt.calloc_body then some expected else none := by
    intro type expected he
    unfold getResponseBody at he ⊢
    cases hc : rt.calloc_body
    · simp
    · simpa using he
  refine ⟨key _ _ ?_, key _ _ ?_, key _ _ ?_, key _ _ ?_, key _ _ ?_, key _ _ ?_, ?_⟩
  · rfl
  · rfl
  · rfl
  · rfl
  · rfl
  · rfl
  · exact ⟨"<HTML>\n<HEAD>\n<TITLE>404 Not Found</TITLE>\n</HEAD>\n<BODY>\n<H4>404 Not Found</H4>\n".toList,
      "\n\n</BODY>\n</HTML>\n".toList, by decide⟩

set_option maxRecDepth 100000 in
/-- Claim C17, at the failing input: in the directory `/sub/` of the site the
entry `index.html` is itself a directory.  The request for `/sub/` is
accepted with `foundFile = 1` and answered by a 200 response for
`/srv/www/sub/index.html`, the request for `/sub/index.html` is answered by
Found. -/
theorem default_document_not_transparent :
    siteWorld.scandir "/srv/www/sub/".toList
      = some [".".toList, "..".toList, "index.html".toList] ∧
    siteWorld.stat "/srv/www/sub/index.html".toList = some dir755 ∧
    parsePath siteWorld "/sub/".toList initResponseInfo
      = some (0, "/sub/".toList,
          { isPathDir := 1, foundFile := 1, numOfFiles := 3,
            fileList := some [".".toList, "..".toList, "index.html".toList],
            absPath := some "/srv/www/sub/index.html".toList,
            root := some "/srv/www".toList }) ∧
    parsePath siteWorld ("/sub/".toList ++ "index.html".toList) initResponseInfo
      = some (CODE_FOUND, "/sub/index.html".toList,
          { initResponseInfo with
            isPathDir := 1, absPath := some "/srv/www/sub/index.html".toList,
            root := some "/srv/www".toList }) := by
  decide

set_option maxRecDepth 100000 in
/-- Claim C18, at the failing input: the directory `/long/` of the site holds
one file, which can be stat-ed and whose name has 230 characters.  `parsePath`
accepts the request; the entity of the file has 545 characters and does not
fit into `char entity[SIZE_DIR_ENTITY]`, so `getDirContents`, and with it
`constructResponse`, has no result: no row is rendered. -/
theorem getDirContents_overruns_entity :
    parsePath siteWorld "/long/".toList initResponseInfo
      = some (0, "/long/".toList,
          { isPathDir := 1, foundFile := 0, numOfFiles := 1, fileList := some [longName],
            absPath := some "/srv/www/long/".toList, root := some "/srv/www".toList }) ∧
    siteWorld.stat ("/srv/www/long/".toList ++ longName) = some file644 ∧
    longName.length = 230 ∧
    (dirEntity exampleRuntime longName file644).length = 545 ∧
    getDirContents exampleRuntime siteWorld
        { isPathDir := 1, foundFile := 0, numOfFiles := 1, fileList := some [longName],
          absPath := some "/srv/www/long/".toList, root := some "/srv/www".toList } = none ∧
    constructResponse exampleRuntime siteWorld CODE_OK (some "/long/".toList)
        { isPathDir := 1, foundFile := 0, numOfFiles := 1, fileList := some [longName],
          absPath := some "/srv/www/long/".toList, root := some "/srv/www".toList } = none := by
  decide

/-- Claim C19, at the failing input: on the response block `ABCD` and two
calls to `write` that accept two bytes each, `writeResponse` returns 0 and the
connection has got `ABAB`: the second call starts at the beginning of the
block again. -/
theorem writeResponse_resends :
    writeResponse siteWorld [2, 2] "ABCD".toList none initResponseInfo
      = (some 0, [Event.write "AB".toList, Event.write "AB".toList], []) ∧
    delivered (writeResponse siteWorld [2, 2] "ABCD".toList none initResponseInfo).2.1
      = "ABAB".toList := by
  decide

/-- Claim C20, at the failing input: on the file of the nine bytes
`<p>hi</p>` and two calls to `write` that accept four and five bytes,
`writeFile` returns 0 and the connection has got `<p>h<p>hi`: the second call
starts at the beginning of the buffer again. -/
theorem writeFile_resends :
    siteWorld.contents "/srv/www/file.html".toList = some "<p>hi</p>".toList ∧
    writeFile siteWorld [4, 5] (some "/srv/www/file.html".toList)
      = (some 0, [Event.openFile (some "/srv/www/file.html".toList),
          Event.write "<p>h".toList, Event.write "<p>hi".toList], []) ∧
    delivered (writeFile siteWorld [4, 5] (some "/srv/www/file.html".toList)).2.1
      = "<p>h<p>hi".toList := by
  decide

/-! ## Lemmas on `readRequest` and `handler` -/

/-- The codes of `readRequest`: 0 and EmptyRequest, whatever the calls to
`read` return.  InternalError is not among them. -/
theorem readRequestLoop_codes (conn : Incoming) (buffer : Char × Char) (bytes_read : Int)
    (request : List Char) (r : Int × List Char)
    (h : readRequestLoop conn buffer bytes_read request = some r) :
    r.1 = 0 ∨ r.1 = CODE_EMPTY_REQUEST := by
  induction conn generalizing buffer bytes_read request with
  | nil =>
    simp only [readRequestLoop, Option.some.injEq] at h
    subst h
    by_cases hb : bytes_read = 0 <;> simp [hb]
  | cons x conn ih =>
    unfold readRequestLoop at h
    cases x with
    | one a =>
      simp only [read] at h
      split at h
      · split at h
        · omega
        · split at h
          · simp at h
          · split at h
            · simp at h
            · split at h
              · simp only [Option.some.injEq] at h
                subst h
                by_cases hb : bytes_read + 1 = 0 <;> simp [hb]
              · exact ih _ _ _ h
      · simp only [Option.some.injEq] at h
        subst h
        by_cases hb : bytes_read = 0 <;> simp [hb]
    | two a b =>
      simp only [read] at h
      split at h
      · split at h
        · omega
        · split at h
          · simp at h
          · split at h
            · simp at h
            · split at h
              · simp only [Option.some.injEq] at h
                subst h
                by_cases hb : bytes_read + 2 = 0 <;> simp [hb]
              · exact ih _ _ _ h
      · simp only [Option.some.injEq] at h
        subst h
        by_cases hb : bytes_read = 0 <;> simp [hb]
    | error =>
      simp only [read] at h
      split at h
      · omega
      · simp only [Option.some.injEq] at h
        subst h
        by_cases hb : bytes_read = 0 <;> simp [hb]

/-- The return code of `readRequest` is never InternalError. -/
theorem readRequest_codes (conn : Incoming) (r : Int × List Char)
    (h : readRequest conn = some r) : r.1 = 0 ∨ r.1 = CODE_EMPTY_REQUEST :=
  readRequestLoop_codes conn _ _ _ r h

/-- As long as the bytes fit the buffer, `readRequest` appends them all: `k`
reads of the two bytes `aa`, after which the peer closes. -/
theorem readRequestLoop_fits (k : Nat) (buffer : Char × Char) (bytes_read : Int)
    (request : List Char) (hb : bytes_read + 2 * k ≤ INT_MAX)
    (hlen : request.length + 2 * k < SIZE_REQUEST) :
    readRequestLoop (List.replicate k (ReadResult.two 'a' 'a')) buffer bytes_read request
      = some (if bytes_read + 2 * k = 0 then CODE_EMPTY_REQUEST else 0,
          request ++ List.replicate (2 * k) 'a') := by
  induction k generalizing buffer bytes_read request with
  | zero => simp [readRequestLoop]
  | succ k ih =>
    have hstr : bufferString ('a', 'a') = ['a', 'a'] := by decide
    have hcr : (strchr ['a', 'a'] '\r').isSome = false := by decide
    have h1 : ¬ INT_MAX < bytes_read + 2 := by push_cast at hb; omega
    have h2 : ¬ SIZE_REQUEST ≤ (request ++ ['a', 'a']).length := by
      simp only [List.length_append, List.length_cons, List.length_nil]; omega
    rw [List.replicate_succ]
    unfold readRequestLoop
    simp only [read, hstr, hcr]
    simp only [show (2 : Int) > 0 by decide, show ¬ (2 : Int) < 0 by decide, if_true, if_false,
      h1, h2, show (2 : Int).toNat = 2 by decide, List.take, Bool.false_eq_true]
    rw [ih]
    · have e1 : bytes_read + 2 + 2 * (k : Int) = bytes_read + 2 * ((k + 1 : Nat) : Int) := by
        push_cast; ring
      have e2 : ['a', 'a'] ++ List.replicate (2 * k) 'a' = List.replicate (2 * (k + 1)) 'a' := by
        rw [show 2 * (k + 1) = 2 * k + 1 + 1 by ring, List.replicate_succ, List.replicate_succ]
        rfl
      rw [e1, List.append_assoc, e2]
    · push_cast at hb ⊢; omega
    · simp only [List.length_append, List.length_cons, List.length_nil]; omega

/-- Once the bytes do not fit the buffer any more, `readRequest` has no
result: `k` reads of the two bytes `aa`, whatever comes after them. -/
theorem readRequestLoop_overrun (k : Nat) (rest : Incoming) (buffer : Char × Char)
    (bytes_read : Int) (request : List Char) (hlt : request.length < SIZE_REQUEST)
    (hlen : SIZE_REQUEST ≤ request.length + 2 * k) :
    readRequestLoop (List.replicate k (ReadResult.two 'a' 'a') ++ rest) buffer bytes_read request
      = none := by
  induction k generalizing buffer bytes_read request with
  | zero => omega
  | succ k ih =>
    have hstr : bufferString ('a', 'a') = ['a', 'a'] := by decide
    have hcr : (strchr ['a', 'a'] '\r').isSome = false := by decide
    rw [List.replicate_succ, List.cons_append]
    unfold readRequestLoop
    simp only [read, hstr, hcr]
    simp only [show (2 : Int) > 0 by decide, show ¬ (2 : Int) < 0 by decide, if_true, if_false,
      show (2 : Int).toNat = 2 by decide, List.take, Bool.false_eq_true]
    by_cases h1 : INT_MAX < bytes_read + 2
    · simp [h1]
    · by_cases h2 : SIZE_REQUEST ≤ (request ++ ['a', 'a']).length
      · simp only [h1, h2, if_true, if_false]
      · simp only [h1, h2, if_false]
        apply ih
        · omega
        · simp only [List.length_append, List.length_cons, List.length_nil] at h2 ⊢; omega

/-- After its last `sendResponse` has returned, the handler frees and closes. -/
theorem cleanup_returns (before : List Event) (sent : Written) (ret r : Int)
    (trace : List Action) (h : cleanup before sent ret = (some r, trace)) :
    r = ret ∧ ∃ evs : List Event,
      trace = evs.map Action.io ++ [Action.freeResponseInfo, Action.close] := by
  obtain ⟨c, evs, sock⟩ := sent
  cases c with
  | none => simp [cleanup] at h
  | some c =>
    simp only [cleanup, Prod.mk.injEq, Option.some.injEq] at h
    exact ⟨h.1.symm, before ++ evs, h.2.symm⟩

/-- The writes and opens have no `freeResponseInfo` and no `close` among them. -/
theorem count_io (evs : List Event) :
    (evs.map Action.io).count Action.freeResponseInfo = 0 ∧
    (evs.map Action.io).count Action.close = 0 := by
  induction evs with
  | nil => simp
  | cons e evs ih => simp [List.count_cons, ih]

/-- The codes of `parseRequest`: 0, Bad and NotSupported. -/
theorem parseRequest_codes (request path : List Char) (code : Int)
    (h : parseRequest request = some (code, path)) :
    code = 0 ∨ code = CODE_BAD ∨ code = CODE_NOT_SUPPORTED := by
  unfold parseRequest at h
  simp only at h
  repeat' split at h
  all_goals simp only [Option.some.injEq, Prod.mk.injEq, reduceCtorEq] at h
  all_goals simp [← h.1]

/-- The codes of `parsePath` and the state it leaves with them: with Found,
Forbidden and InternalError `foundFile = 0` and `isPathDir = 1`, so that
`writeResponse` does not call `writeFile`; with NotFound and with -1
`isPathDir = 0`, so that it does.  These and 0 are all its codes. -/
theorem parsePath_codes (w : World) (path path2 : List Char) (code : Int) (ri : response_info_t)
    (h : parsePath w path initResponseInfo = some (code, path2, ri)) :
    (code = 0 ∨ code = CODE_FOUND ∨ code = CODE_FORBIDDEN ∨ code = CODE_NOT_FOUND ∨
      code = CODE_INTERNAL_ERROR ∨ code = -1) ∧
    (code = CODE_FOUND ∨ code = CODE_FORBIDDEN ∨ code = CODE_INTERNAL_ERROR →
      ri.foundFile = 0 ∧ ri.isPathDir = 1) ∧
    (code = CODE_NOT_FOUND ∨ code = -1 → ri.foundFile = 0 ∧ ri.isPathDir = 0) := by
  unfold parsePath at h
  rw [replaceSubstring_eq] at h
  simp only at h
  repeat' split at h
  all_goals simp only [Option.some.injEq, Prod.mk.injEq, reduceCtorEq] at h
  all_goals obtain ⟨rfl, rfl, rfl⟩ := h
  all_goals simp_all [CODE_FORBIDDEN, CODE_NOT_FOUND, CODE_FOUND, CODE_INTERNAL_ERROR,
    initResponseInfo]

/-- The length of a row of the listing: 37 characters of markup, the name
twice, the timestamp, and the size cell, which has 15 characters for a
directory and 15 and the digits of the size for a file. -/
theorem dirEntity_length (rt : Runtime) (d_name : List Char) (statBuff : Stat) :
    (dirEntity rt d_name statBuff).length
      = 37 + 2 * d_name.length + (rt.strftime statBuff.st_mtime).length
        + (if S_ISDIR statBuff.st_mode then 15 else 15 + (decimal statBuff.st_size).length) := by
  unfold dirEntity
  by_cases hd : S_ISDIR statBuff.st_mode = true
  · simp only [hd, if_true, List.length_append]
    have e1 : "<tr><td><A HREF=\"".toList.length = 17 := by decide
    have e2 : "\">".toList.length = 2 := by decide
    have e3 : "</A></td><td>".toList.length = 13 := by decide
    have e4 : "</td>".toList.length = 5 := by decide
    have e5 : "<td></td></tr>\n".toList.length = 15 := by decide
    rw [e1, e2, e3, e4, e5]; omega
  · simp only [hd, if_false, List.length_append, Bool.false_eq_true]
    have e1 : "<tr><td><A HREF=\"".toList.length = 17 := by decide
    have e2 : "\">".toList.length = 2 := by decide
    have e3 : "</A></td><td>".toList.length = 13 := by decide
    have e4 : "</td>".toList.length = 5 := by decide
    have e5 : "<td>".toList.length = 4 := by decide
    have e6 : "</td></tr>\n".toList.length = 11 := by decide
    rw [e1, e2, e3, e4, e5, e6]; omega
/-! ## The claims C21 to C28 -/

/-- Claim C21: when the peer closes the connection before any byte is read
(the first `read` returns 0), `readRequest` returns EmptyRequest, and the
handler, whose request state has been allocated, writes nothing to the
connection, calls `freeResponseInfo`, closes the connection and returns -1. -/
theorem handler_empty_request (rt retry : Runtime) (w : World) (sock : Socket) :
    readRequest [] = some (CODE_EMPTY_REQUEST, []) ∧
    handler rt retry w true [] sock
      = some (some (-1), [Action.freeResponseInfo, Action.close]) := by
  constructor
  · rfl
  · rfl

set_option maxRecDepth 100000 in
/-- Claim C22, at the failing inputs: when the first `read` fails,
`readRequest` returns EmptyRequest and the handler closes the connection
without a response; when a `read` fails after the two bytes `GE`,
`readRequest` returns 0 with the request `GE`, which the handler answers by
Bad Request.  In both cases no carriage return has been seen and the code is
not InternalError. -/
theorem readRequest_read_error :
    readRequest [ReadResult.error] = some (CODE_EMPTY_REQUEST, []) ∧
    handler exampleRuntime exampleRuntime siteWorld true [ReadResult.error] [268]
      = some (some (-1), [Action.freeResponseInfo, Action.close]) ∧
    readRequest [ReadResult.two 'G' 'E', ReadResult.error] = some (0, "GE".toList) ∧
    handler exampleRuntime exampleRuntime siteWorld true
        [ReadResult.two 'G' 'E', ReadResult.error] [268]
      = some (some (-1),
          [Action.io (Event.write "HTTP/1.0 400 Bad Request\r\nServer: webserver/1.0\r\nDate: Thu, 01 Jan 1970 00:00:00 GMT\r\nContent-Type: text/html\r\nContent-Length: 115\r\nConnection: close\r\n\r\n<HTML>\n<HEAD>\n<TITLE>400 Bad Request</TITLE>\n</HEAD>\n<BODY>\n<H4>400 Bad Request</H4>\nBad Request.\n\n</BODY>\n</HTML>\n".toList),
           Action.freeResponseInfo, Action.close]) := by
  decide

/-- Claim C23, at the failing input: a peer sends 4000 bytes `a`, two with
every `read`, and no carriage return.  After 1999 reads `request` holds 3998
characters; the next `strncat` appends two more and the terminator, which
lies beyond `char request[SIZE_REQUEST]`, so `readRequest` has no result,
whatever the peer sends afterwards. -/
theorem readRequest_overruns_request :
    readRequest (List.replicate 1999 (ReadResult.two 'a' 'a'))
      = some (0, List.replicate 3998 'a') ∧
    ∀ rest : Incoming,
      readRequest (List.replicate 2000 (ReadResult.two 'a' 'a') ++ rest) = none := by
  constructor
  · have h := readRequestLoop_fits 1999 (NUL, NUL) 0 [] (by decide) (by decide)
    rw [readRequest, h]
    rfl
  · intro rest
    exact readRequestLoop_overrun 2000 rest (NUL, NUL) 0 [] (by decide) (by decide)

/-- On every run of the handler that returns, whatever the peer sends, the
file system holds and the calls to `write` answer, what the handler does on
the outside is a sequence of writes and opens, then one call of
`freeResponseInfo`, then one call of `close`, and nothing after it. -/
theorem handler_cleanup (rt retry : Runtime) (w : World) (calloc_info : Bool) (conn : Incoming)
    (sock : Socket) (ret : Int) (trace : List Action)
    (h : handler rt retry w calloc_info conn sock = some (some ret, trace)) :
    (∃ evs : List Event,
      trace = evs.map Action.io ++ [Action.freeResponseInfo, Action.close]) ∧
    trace.count Action.freeResponseInfo = 1 ∧ trace.count Action.close = 1 := by
  have key : ∃ evs : List Event,
      trace = evs.map Action.io ++ [Action.freeResponseInfo, Action.close] := by
    have hmap : ∀ (before : List Event) (code : Int) (o : Option Written),
        o.map (fun sent => cleanup before sent code) = some (some ret, trace) →
        ∃ evs : List Event,
          trace = evs.map Action.io ++ [Action.freeResponseInfo, Action.close] := by
      intro before code o ho
      simp only [Option.map_eq_some'] at ho
      obtain ⟨sent, _, hc⟩ := ho
      exact (cleanup_returns _ _ _ _ _ hc).2
    have hsome : ∀ (before : List Event) (code : Int) (sent : Written),
        some (cleanup before sent code) = some (some ret, trace) →
        ∃ evs : List Event,
          trace = evs.map Action.io ++ [Action.freeResponseInfo, Action.close] := by
      intro before code sent ho
      exact (cleanup_returns _ _ _ _ _ (Option.some.inj ho)).2
    unfold handler at h
    split at h
    · contradiction
    · generalize readRequest conn = rr at h
      rcases rr with _ | ⟨c1, request⟩
      · contradiction
      · simp only at h
        split at h
        · split at h
          · exact hmap _ _ _ h
          · exact hsome _ _ _ h
        · generalize parseRequest request = pr at h
          rcases pr with _ | ⟨c2, path⟩
          · contradiction
          · simp only at h
            split at h
            · split at h
              · exact hmap _ _ _ h
              · exact hsome _ _ _ h
            · generalize parsePath w path initResponseInfo = pp at h
              rcases pp with _ | ⟨c3, path2, ri⟩
              · contradiction
              · simp only at h
                split at h
                · exact hmap _ _ _ h
                · generalize sendResponse rt w sock CODE_OK (some path2) ri = sr at h
                  rcases sr with _ | ⟨_ | r, evs, sock2⟩
                  · contradiction
                  · simp at h
                  · simp only at h
                    split at h
                    · exact hmap _ _ _ h
                    · exact hsome _ _ _ h
  obtain ⟨evs, rfl⟩ := key
  refine ⟨⟨evs, rfl⟩, ?_, ?_⟩
  · rw [List.count_append, (count_io evs).1]; decide
  · rw [List.count_append, (count_io evs).2]; decide

set_option maxRecDepth 100000 in
/-- The run of the handler on the request for the listing of `/docs/` of the
site, which the connection accepts in one `write`: the handler returns 0. -/
theorem handler_cleanup_witness :
    handler exampleRuntime exampleRuntime siteWorld true
        (inTwos "GET /docs/ HTTP/1.0\r\n\r\n".toList) [698]
      = some (some 0,
          [Action.io (Event.write "HTTP/1.0 200 OK\r\nServer: webserver/1.0\r\nDate: Thu, 01 Jan 1970 00:00:00 GMT\r\nContent-Type: text/html\r\nContent-Length: 508\r\nLast-Modified: Thu, 01 Jan 1970 00:00:00 GMT\r\nConnection: close\r\n\r\n<HTML>\n<HEAD>\n<TITLE>Index of /srv/www/docs/</TITLE>\n</HEAD>\n<BODY>\n<H4>Index of /srv/www/docs/</H4>\n<table CELLSPACING=8>\n<tr><th>Name</th><th>Last Modified</th><th>Size</th></tr>\n<tr><td><A HREF=\".\">.</A></td><td>Thu, 01 Jan 1970 00:00:00 GMT</td><td></td></tr>\n<tr><td><A HREF=\"..\">..</A></td><td>Thu, 01 Jan 1970 00:00:00 GMT</td><td></td></tr>\n<tr><td><A HREF=\"a.txt\">a.txt</A></td><td>Thu, 01 Jan 1970 00:00:00 GMT</td><td>1024</td></tr>\n</table>\n<HR>\n<ADDRESS>webserver/1.0</ADDRESS>\n\n</BODY>\n</HTML>\n".toList),
           Action.freeResponseInfo, Action.close]) ∧
    ((∃ evs : List Event,
      [Action.io (Event.write "HTTP/1.0 200 OK\r\nServer: webserver/1.0\r\nDate: Thu, 01 Jan 1970 00:00:00 GMT\r\nContent-Type: text/html\r\nContent-Length: 508\r\nLast-Modified: Thu, 01 Jan 1970 00:00:00 GMT\r\nConnection: close\r\n\r\n<HTML>\n<HEAD>\n<TITLE>Index of /srv/www/docs/</TITLE>\n</HEAD>\n<BODY>\n<H4>Index of /srv/www/docs/</H4>\n<table CELLSPACING=8>\n<tr><th>Name</th><th>Last Modified</th><th>Size</th></tr>\n<tr><td><A HREF=\".\">.</A></td><td>Thu, 01 Jan 1970 00:00:00 GMT</td><td></td></tr>\n<tr><td><A HREF=\"..\">..</A></td><td>Thu, 01 Jan 1970 00:00:00 GMT</td><td></td></tr>\n<tr><td><A HREF=\"a.txt\">a.txt</A></td><td>Thu, 01 Jan 1970 00:00:00 GMT</td><td>1024</td></tr>\n</table>\n<HR>\n<ADDRESS>webserver/1.0</ADDRESS>\n\n</BODY>\n</HTML>\n".toList),
       Action.freeResponseInfo, Action.close]
        = evs.map Action.io ++ [Action.freeResponseInfo, Action.close]) ∧
    [Action.io (Event.write "HTTP/1.0 200 OK\r\nServer: webserver/1.0\r\nDate: Thu, 01 Jan 1970 00:00:00 GMT\r\nContent-Type: text/html\r\nContent-Length: 508\r\nLast-Modified: Thu, 01 Jan 1970 00:00:00 GMT\r\nConnection: close\r\n\r\n<HTML>\n<HEAD>\n<TITLE>Index of /srv/www/docs/</TITLE>\n</HEAD>\n<BODY>\n<H4>Index of /srv/www/docs/</H4>\n<table CELLSPACING=8>\n<tr><th>Name</th><th>Last Modified</th><th>Size</th></tr>\n<tr><td><A HREF=\".\">.</A></td><td>Thu, 01 Jan 1970 00:00:00 GMT</td><td></td></tr>\n<tr><td><A HREF=\"..\">..</A></td><td>Thu, 01 Jan 1970 00:00:00 GMT</td><td></td></tr>\n<tr><td><A HREF=\"a.txt\">a.txt</A></td><td>Thu, 01 Jan 1970 00:00:00 GMT</td><td>1024</td></tr>\n</table>\n<HR>\n<ADDRESS>webserver/1.0</ADDRESS>\n\n</BODY>\n</HTML>\n".toList),
       Action.freeResponseInfo, Action.close].count Action.freeResponseInfo = 1 ∧
    [Action.io (Event.write "HTTP/1.0 200 OK\r\nServer: webserver/1.0\r\nDate: Thu, 01 Jan 1970 00:00:00 GMT\r\nContent-Type: text/html\r\nContent-Length: 508\r\nLast-Modified: Thu, 01 Jan 1970 00:00:00 GMT\r\nConnection: close\r\n\r\n<HTML>\n<HEAD>\n<TITLE>Index of /srv/www/docs/</TITLE>\n</HEAD>\n<BODY>\n<H4>Index of /srv/www/docs/</H4>\n<table CELLSPACING=8>\n<tr><th>Name</th><th>Last Modified</th><th>Size</th></tr>\n<tr><td><A HREF=\".\">.</A></td><td>Thu, 01 Jan 1970 00:00:00 GMT</td><td></td></tr>\n<tr><td><A HREF=\"..\">..</A></td><td>Thu, 01 Jan 1970 00:00:00 GMT</td><td></td></tr>\n<tr><td><A HREF=\"a.txt\">a.txt</A></td><td>Thu, 01 Jan 1970 00:00:00 GMT</td><td>1024</td></tr>\n</table>\n<HR>\n<ADDRESS>webserver/1.0</ADDRESS>\n\n</BODY>\n</HTML>\n".toList),
       Action.freeResponseInfo, Action.close].count Action.close = 1) :=
  ⟨by decide, handler_cleanup exampleRuntime exampleRuntime siteWorld true
    (inTwos "GET /docs/ HTTP/1.0\r\n\r\n".toList) [698] 0 _ (by decide)⟩

set_option maxRecDepth 100000 in
/-- Claim C24, at the failing inputs: the peer sends `GET http://host HTTP/1.0`
or, to the site with the regular file `/file.html`, `GET /file.html HTTP/1.0`.
The request state is allocated and `readRequest` returns 0; then
`parseRequest` passes NULL to `strcat`, or `parsePath` overruns `dir_path`,
and the handler has no result: it reaches none of its calls of
`freeResponseInfo` and `close`. -/
theorem handler_without_cleanup :
    readRequest (inTwos "GET http://host HTTP/1.0\r\n\r\n".toList)
      = some (0, "GET http://host HTTP/1.0\r\n".toList) ∧
    parseRequest "GET http://host HTTP/1.0\r\n".toList = none ∧
    handler exampleRuntime exampleRuntime siteWorld true
      (inTwos "GET http://host HTTP/1.0\r\n\r\n".toList) [268] = none ∧
    readRequest (inTwos "GET /file.html HTTP/1.0\r\n\r\n".toList)
      = some (0, "GET /file.html HTTP/1.0\r".toList) ∧
    parseRequest "GET /file.html HTTP/1.0\r".toList = some (0, "/file.html".toList) ∧
    parsePath siteWorld "/file.html".toList initResponseInfo = none ∧
    handler exampleRuntime exampleRuntime siteWorld true
      (inTwos "GET /file.html HTTP/1.0\r\n\r\n".toList) [268] = none := by
  decide

set_option maxRecDepth 100000 in
/-- Claim C25, at the failing input: at a moment at which `getcwd` fails, or
the `calloc` of the absolute path fails, `parsePath` returns -1, which is none
of the seven codes and not the EmptyRequest sentinel.  The handler sends a
response for it whose status line is `HTTP/1.0 ` and nothing more, with a
page of empty title and text. -/
theorem parsePath_code_outside_enumeration :
    parsePath lostWorld "/".toList initResponseInfo = some (-1, "/".toList, initResponseInfo) ∧
    parsePath { siteWorld with calloc_ok := false } "/".toList initResponseInfo
      = some (-1, "/".toList, initResponseInfo) ∧
    (-1 : Int) ∉ statusCodes ∧ (-1 : Int) ≠ CODE_EMPTY_REQUEST ∧
    handler exampleRuntime exampleRuntime lostWorld true
        (inTwos "GET / HTTP/1.0\r\n\r\n".toList) [209]
      = some (some (-1),
          [Action.io (Event.write "HTTP/1.0 \r\nServer: webserver/1.0\r\nDate: Thu, 01 Jan 1970 00:00:00 GMT\r\nContent-Type: text/html\r\nContent-Length: 72\r\nConnection: close\r\n\r\n<HTML>\n<HEAD>\n<TITLE></TITLE>\n</HEAD>\n<BODY>\n<H4></H4>\n\n</BODY>\n</HTML>\n".toList),
           Action.io (Event.openFile none),
           Action.freeResponseInfo, Action.close]) := by
  decide

set_option maxRecDepth 100000 in
/-- Claim C26, at the failing input: the request line
`GET http://host HTTP/1.0` has the method `GET`, an accepted protocol and a
path token that begins with `http`.  From offset 7 of the token there is no
`/`, the NULL of `strchr` goes to `strcat`, and `parseRequest`, and with it
the handler, has no result. -/
theorem parseRequest_absolute_url_without_slash :
    sscanfRequest "GET http://host HTTP/1.0".toList
      = some (3, "GET".toList, "http://host".toList, "HTTP/1.0".toList) ∧
    startsWith "http://host".toList "http".toList = true ∧
    strchr ("http://host".toList.drop "http://".toList.length) '/' = none ∧
    parseRequest "GET http://host HTTP/1.0\r\n\r\n".toList = none ∧
    handler exampleRuntime exampleRuntime siteWorld true
        (inTwos "GET http://host HTTP/1.0\r\n\r\n".toList) [] = none := by
  decide

set_option maxRecDepth 100000 in
/-- Claim C27, at the failing input: the site has no `/missing`.  `parsePath`
returns NotFound and leaves `isPathDir = 0`; the handler sends the 404
response, and `writeResponse` then calls `writeFile`, which tries to open
`/srv/www/missing`. -/
theorem writeFile_attempted_after_not_found :
    parsePath siteWorld "/missing".toList initResponseInfo
      = some (CODE_NOT_FOUND, "/missing".toList,
          { initResponseInfo with
            absPath := some "/srv/www/missing".toList, root := some "/srv/www".toList }) ∧
    handler exampleRuntime exampleRuntime siteWorld true
        (inTwos "GET /missing HTTP/1.0\r\n\r\n".toList) [265]
      = some (some (-1),
          [Action.io (Event.write "HTTP/1.0 404 Not Found\r\nServer: webserver/1.0\r\nDate: Thu, 01 Jan 1970 00:00:00 GMT\r\nContent-Type: text/html\r\nContent-Length: 114\r\nConnection: close\r\n\r\n<HTML>\n<HEAD>\n<TITLE>404 Not Found</TITLE>\n</HEAD>\n<BODY>\n<H4>404 Not Found</H4>\nFile not found.\n\n</BODY>\n</HTML>\n".toList),
           Action.io (Event.openFile (some "/srv/www/missing".toList)),
           Action.freeResponseInfo, Action.close]) := by
  decide

set_option maxRecDepth 100000 in
/-- Claim C28, at the failing input: a sub-directory whose name has 210
characters, with a timestamp of 29 characters.  Its row has 501 characters and
does not fit, with its terminator, into `char entity[SIZE_DIR_ENTITY]`: the
loop of `getDirContents` has no result. -/
theorem dirEntity_exceeds_entity_buffer :
    wideName.length = 210 ∧ wideName.length ≤ 255 ∧
    (exampleRuntime.strftime dir755.st_mtime).length = 29 ∧
    (dirEntity exampleRuntime wideName dir755).length = 501 ∧
    ¬ (dirEntity exampleRuntime wideName dir755).length < SIZE_DIR_ENTITY ∧
    getDirContentsLoop exampleRuntime wideWorld "/srv/www/".toList [wideName] tableHead
      = none := by
  decide

end HttpServer
